import Mathlib

/-!
# wlterm glyph-caching CPU rasterizer: shallow embedding

Embedding of `wlterm/src/wlt_render.c` and `wlterm/src/wlt_font.c`.

Conventions.
* `unsigned int` / `uint32_t` values are `Nat`; every C operation that can wrap
  carries an explicit `% 4294967296`.  `int` values (strides, return codes) are `Int`.
* `uint8_t` values are `Nat`; a byte load reduces `% 256`, a store writes `% 256`.
* A pixel buffer is a `List Nat` of bytes.  A C function that writes pixels is split
  in two: the ordered list of 32-bit stores its loops perform, and the effect of a
  list of stores on a buffer (`apply_stores`).  A 32-bit store is little-endian.
* An access outside the buffer is undefined behaviour in C; here such a store is
  dropped and such a load yields `0`.  The theorems that speak about pixel contents
  carry the data-model invariants under which no such access occurs.
* Calls into cairo, pango, glib, libtsm and the allocator are outcomes supplied by
  an environment record; theorems quantify over every environment.
-/

namespace Wlterm

/-! ## Memory -/

/-- Byte `n` (little-endian) of a 32-bit word. -/
def byte_of (v n : Nat) : Nat := v / 256 ^ n % 256

/-- The store `*(uint32_t*)(buf + off) = v`. -/
def store32 (buf : List Nat) (off : Int) (v : Nat) : List Nat :=
  if off < 0 then buf
  else
    let o := off.toNat
    (((buf.set o (byte_of v 0)).set (o + 1) (byte_of v 1)).set (o + 2) (byte_of v 2)).set
      (o + 3) (byte_of v 3)

/-- The load `*(uint32_t*)(buf + off)`. -/
def load32 (buf : List Nat) (off : Int) : Nat :=
  if off < 0 then 0
  else
    let o := off.toNat
    buf.getD o 0 % 256 + buf.getD (o + 1) 0 % 256 * 256 + buf.getD (o + 2) 0 % 256 * 65536
      + buf.getD (o + 3) 0 % 256 * 16777216

/-- The load `src[off]` of a `uint8_t`. -/
def load8 (buf : List Nat) (off : Int) : Nat :=
  if off < 0 then 0 else buf.getD off.toNat 0 % 256

/-- Performs a sequence of 32-bit stores `(offset, word)` in order. -/
def apply_stores (buf : List Nat) (ws : List (Int × Nat)) : List Nat :=
  ws.foldl (fun b w => store32 b w.1 w.2) buf

/-- Store at offset `off` writes byte `k` of the buffer. -/
def covers (off : Int) (k : Nat) : Prop := 0 ≤ off ∧ off ≤ (k : Int) ∧ (k : Int) < off + 4

instance (off : Int) (k : Nat) : Decidable (covers off k) := by
  unfold covers; infer_instance

/-! ## Renderer (wlt_render.c) -/

/-- The C `struct wlt_renderer`; the cairo surface is a view of `data` and is not modelled. -/
structure wlt_renderer where
  width : Nat
  height : Nat
  stride : Int
  data : List Nat
  age : Nat
deriving DecidableEq, Repr

/-- Data-model invariant of a renderer (established by `wlt_renderer_realloc` when cairo
accepts the surface): scanlines do not overlap, the buffer holds `height` scanlines, and
every byte offset fits the `unsigned int` index arithmetic of the drawing primitives. -/
def wlt_renderer.Valid (r : wlt_renderer) : Prop :=
  4 * (r.width : Int) ≤ r.stride ∧ (r.data.length : Int) = r.stride * (r.height : Int) ∧
    r.stride * (r.height : Int) < 4294967296

instance (r : wlt_renderer) : Decidable r.Valid := by
  unfold wlt_renderer.Valid; infer_instance

/-- Values of `enum wlt_glyph_format`. -/
inductive wlt_glyph_format where
  | WLT_GLYPH_INVALID
  | WLT_GLYPH_A1
  | WLT_GLYPH_A8
  | WLT_GLYPH_RGB24
deriving DecidableEq, Repr

/-- The C `struct wlt_glyph`; `cr_surface` is a view of `buffer` and is not modelled. -/
structure wlt_glyph where
  id : Nat
  cwidth : Nat
  format : wlt_glyph_format
  width : Nat
  stride : Int
  height : Nat
  buffer : List Nat
deriving DecidableEq, Repr

/-- Data-model invariant of a glyph: the mask holds `height` scanlines of `stride` bytes and
a scanline holds `width` mask bytes. -/
def wlt_glyph.Valid (g : wlt_glyph) : Prop :=
  (g.width : Int) ≤ g.stride ∧ (g.buffer.length : Int) = g.stride * (g.height : Int)

instance (g : wlt_glyph) : Decidable g.Valid := by
  unfold wlt_glyph.Valid; infer_instance

/-- The clipping test shared by fill, highlight and blend:
`tmp = x + width; if (tmp <= x || x >= limit) return; if (tmp > limit) width = limit - x;`
Result `none` is the early return, `some w` the clipped extent. -/
def clip (x width limit : Nat) : Option Nat :=
  let tmp := (x + width) % 4294967296
  if tmp ≤ x ∨ x ≥ limit then none
  else if tmp > limit then some (limit - x)
  else some width

/-- The pixel word `(0xff << 24) | (r << 16) | (g << 8) | b`, as stored in a `uint32_t`. -/
def pack (r g b : Nat) : Nat :=
  ((0xff <<< 24) ||| (r <<< 16) ||| (g <<< 8) ||| b) % 4294967296

/-- The address computation `&dst[y * rend->stride + x * 4]`: the index is an
`unsigned int`, so it is reduced modulo `2^32`. -/
def dst_offset (rend : wlt_renderer) (x y : Nat) : Int :=
  ((y : Int) * rend.stride + (x : Int) * 4) % 4294967296

/-- Stores of `for (i = 0; i < width; ++i) ((uint32_t*)dst)[i] = out;`. -/
def fill_row (dst : Int) (width out : Nat) : List (Int × Nat) :=
  (List.range width).map (fun (i : Nat) => (dst + 4 * (i : Int), out))

/-- Stores of `while (height--) { <row>; dst += rend->stride; }` in fill. -/
def fill_rows (dst stride : Int) (width out : Nat) : Nat → List (Int × Nat)
  | 0 => []
  | h + 1 => fill_row dst width out ++ fill_rows (dst + stride) stride width out h

/-- The stores performed by `wlt_renderer_fill`, in program order. -/
def wlt_renderer_fill_stores (rend : wlt_renderer) (x y width height br bg bb : Nat) :
    List (Int × Nat) :=
  match clip x width rend.width with
  | none => []
  | some width =>
    match clip y height rend.height with
    | none => []
    | some height =>
      fill_rows (dst_offset rend x y) rend.stride width (pack br bg bb) height

/-- The C function `wlt_renderer_fill`. -/
def wlt_renderer_fill (rend : wlt_renderer) (x y width height br bg bb : Nat) : wlt_renderer :=
  { rend with
    data := apply_stores rend.data (wlt_renderer_fill_stores rend x y width height br bg bb) }

/-- Stores of one scanline of `wlt_renderer_highlight`: the two border pixels, then the
whole line when `full` (first or last scanline).  `width - 1` is an `unsigned int`. -/
def highlight_row (dst : Int) (width out : Nat) (full : Bool) : List (Int × Nat) :=
  [(dst, out), (dst + 4 * (((width + 4294967295) % 4294967296 : Nat) : Int), out)]
    ++ (if full then fill_row dst width out else [])

/-- Stores of the scanline loop of `wlt_renderer_highlight`, from scanline `i` on,
`n` scanlines remaining (`i + n = height`). -/
def highlight_rows (dst stride : Int) (width out height : Nat) (i : Nat) : Nat → List (Int × Nat)
  | 0 => []
  | n + 1 =>
    highlight_row dst width out (i == 0 || (i + 1) % 4294967296 == height)
      ++ highlight_rows (dst + stride) stride width out height (i + 1) n

/-- The stores performed by `wlt_renderer_highlight`, in program order. -/
def wlt_renderer_highlight_stores (rend : wlt_renderer) (x y width height : Nat) :
    List (Int × Nat) :=
  match clip x width rend.width with
  | none => []
  | some width =>
    match clip y height rend.height with
    | none => []
    | some height =>
      highlight_rows (dst_offset rend x y) rend.stride width (pack 0xd0 0x10 0x10) height 0 height

/-- The C function `wlt_renderer_highlight`. -/
def wlt_renderer_highlight (rend : wlt_renderer) (x y width height : Nat) : wlt_renderer :=
  { rend with
    data := apply_stores rend.data (wlt_renderer_highlight_stores rend x y width height) }

/-- One colour channel of the blend for a mask byte strictly between 0 and 255:
`t = f * a + b * (255 - a); t += 0x80; t = (t + (t >> 8)) >> 8`. -/
def blend_channel (f a b : Nat) : Nat :=
  let t := f * a + b * (255 - a)
  let t := t + 0x80
  (t + (t >>> 8)) >>> 8

/-- The pixel word computed by `wlt_renderer_blend` for mask byte `a`. -/
def blend_pixel (a fr fg fb br bg bb : Nat) : Nat :=
  if a = 0 then pack br bg bb
  else if a = 255 then pack fr fg fb
  else pack (blend_channel fr a br) (blend_channel fg a bg) (blend_channel fb a bb)

/-- Stores of the inner loop of `wlt_renderer_blend` for one scanline. -/
def blend_row (dst : Int) (mask : List Nat) (src : Int) (width fr fg fb br bg bb : Nat) :
    List (Int × Nat) :=
  (List.range width).map
    (fun (i : Nat) =>
      (dst + 4 * (i : Int), blend_pixel (load8 mask (src + (i : Int))) fr fg fb br bg bb))

/-- Stores of `while (height--) { <row>; dst += rend->stride; src += glyph->stride; }`. -/
def blend_rows (dst stride : Int) (mask : List Nat) (src gstride : Int)
    (width fr fg fb br bg bb : Nat) : Nat → List (Int × Nat)
  | 0 => []
  | h + 1 =>
    blend_row dst mask src width fr fg fb br bg bb
      ++ blend_rows (dst + stride) stride mask (src + gstride) gstride width fr fg fb br bg bb h

/-- The stores performed by `wlt_renderer_blend`, in program order. -/
def wlt_renderer_blend_stores (rend : wlt_renderer) (glyph : wlt_glyph) (x y : Nat)
    (fr fg fb br bg bb : Nat) : List (Int × Nat) :=
  match clip x glyph.width rend.width with
  | none => []
  | some width =>
    match clip y glyph.height rend.height with
    | none => []
    | some height =>
      blend_rows (dst_offset rend x y) rend.stride glyph.buffer 0 glyph.stride width
        fr fg fb br bg bb height

/-- The C function `wlt_renderer_blend`. -/
def wlt_renderer_blend (rend : wlt_renderer) (glyph : wlt_glyph) (x y : Nat)
    (fr fg fb br bg bb : Nat) : wlt_renderer :=
  { rend with
    data := apply_stores rend.data (wlt_renderer_blend_stores rend glyph x y fr fg fb br bg bb) }

/-- Byte indices of the mask loads `src[i]` of one scanline of `wlt_renderer_blend`. -/
def blend_row_loads (src : Int) (width : Nat) : List Int :=
  (List.range width).map (fun (i : Nat) => src + (i : Int))

/-- Byte indices of the mask loads of the scanline loop of `wlt_renderer_blend`
(`src += glyph->stride` after each scanline). -/
def blend_rows_loads (src gstride : Int) (width : Nat) : Nat → List Int
  | 0 => []
  | h + 1 => blend_row_loads src width ++ blend_rows_loads (src + gstride) gstride width h

/-- The byte indices into `glyph->buffer` that `wlt_renderer_blend` loads, in program order. -/
def wlt_renderer_blend_loads (rend : wlt_renderer) (glyph : wlt_glyph) (x y : Nat) : List Int :=
  match clip x glyph.width rend.width with
  | none => []
  | some width =>
    match clip y glyph.height rend.height with
    | none => []
    | some height => blend_rows_loads 0 glyph.stride width height

/-- The C function `wlt_renderer_dirty`. -/
def wlt_renderer_dirty (rend : wlt_renderer) : wlt_renderer :=
  { rend with age := 0 }

/-- Conversion of an `unsigned int` product to `int` (two's complement). -/
def to_int32 (p : Int) : Int :=
  if p % 4294967296 ≥ 2147483648 then p % 4294967296 - 4294967296 else p % 4294967296

/-- Outcomes of the library calls made by `wlt_renderer_realloc`: the stride cairo reports
for an ARGB32 surface of a given width, whether `malloc` and the surface creation succeed,
and the (indeterminate) bytes of the fresh block. -/
structure realloc_env where
  stride_for_width : Nat → Int
  malloc_ok : Bool
  garbage : Nat → Nat
  surface_ok : Bool

/-- Error numbers of `errno.h`. -/
def ENOMEM : Int := 12

/-- Error number `EINVAL`. -/
def EINVAL : Int := 22

/-- Error number `ERANGE`. -/
def ERANGE : Int := 34

/-- The C function `wlt_renderer_realloc`; returns the status and the renderer afterwards.
The allocation size is `abs(stride * height)` with the product taken in `unsigned int`. -/
def wlt_renderer_realloc (rend : wlt_renderer) (width height : Nat) (env : realloc_env) :
    Int × wlt_renderer :=
  let stride := env.stride_for_width width
  let size := (to_int32 (stride * (height : Int))).natAbs
  if !env.malloc_ok then (-ENOMEM, rend)
  else if !env.surface_ok then (-ENOMEM, rend)
  else
    (0, { width := width, height := height, stride := stride,
          data := (List.range size).map (fun i => env.garbage i % 256), age := 0 })

/-- The C function `wlt_renderer_new`; `rend_alloc` is the outcome of `calloc`. -/
def wlt_renderer_new (width height : Nat) (rend_alloc : Bool) (env : realloc_env) :
    Int × Option wlt_renderer :=
  if !rend_alloc then (-ENOMEM, none)
  else
    let rend : wlt_renderer := { width := 0, height := 0, stride := 0, data := [], age := 0 }
    let res := wlt_renderer_realloc rend width height env
    if res.1 < 0 then (res.1, none) else (0, some res.2)

/-- The C function `wlt_renderer_resize`. -/
def wlt_renderer_resize (rend : wlt_renderer) (width height : Nat) (env : realloc_env) :
    Int × wlt_renderer :=
  wlt_renderer_realloc rend width height env

/-! ## Faces and the glyph cache (wlt_font.c) -/

/-- The C `struct wlt_face`.  The reference count, the font and the pango context are not
modelled; the hash table `glyphs` is the list of its entries. -/
structure wlt_face where
  glyphs : List wlt_glyph
  width : Nat
  height : Nat
  baseline : Nat
deriving DecidableEq, Repr

/-- Modelled from the spec: `shl_htable_lookup_ulong` of `shl_htable.h`, which is not among
the sources.  The glyph cache is a mapping from id to glyph with unique keys; lookup returns
the entry stored under the id, if any. -/
def shl_htable_lookup_ulong (glyphs : List wlt_glyph) (id : Nat) : Option wlt_glyph :=
  glyphs.find? (fun g => g.id == id)

/-- Modelled from the spec: the successful case of `shl_htable_insert_ulong` of
`shl_htable.h`, which is not among the sources: the entry is added to the mapping. -/
def shl_htable_insert_ulong (glyphs : List wlt_glyph) (g : wlt_glyph) : List wlt_glyph :=
  g :: glyphs

/-- Values of cairo's `cairo_format_t` that `c2f` distinguishes. -/
inductive cairo_format_t where
  | CAIRO_FORMAT_ARGB32
  | CAIRO_FORMAT_RGB24
  | CAIRO_FORMAT_A8
  | CAIRO_FORMAT_A1
  | CAIRO_FORMAT_OTHER
deriving DecidableEq, Repr

/-- The C function `c2f`. -/
def c2f : cairo_format_t → wlt_glyph_format
  | .CAIRO_FORMAT_A1 => .WLT_GLYPH_A1
  | .CAIRO_FORMAT_A8 => .WLT_GLYPH_A8
  | .CAIRO_FORMAT_RGB24 => .WLT_GLYPH_RGB24
  | _ => .WLT_GLYPH_INVALID

/-- Outcomes of the library calls made by one `wlt_face_render`: whether the two `calloc`s
succeed, the stride cairo reports for an A8 surface of a given width, whether the surface and
the drawing context are created, whether `g_ucs4_to_utf8` converts the code points, how many
lines pango lays out, the mask bytes pango leaves in the buffer, and the return value of
`shl_htable_insert_ulong`. -/
structure render_env where
  glyph_alloc : Bool
  stride_for_width : Nat → Int
  buffer_alloc : Bool
  surface_ok : Bool
  cr_ok : Bool
  utf8_ok : List Nat → Nat → Bool
  line_count : List Nat → Nat → Nat
  ink : List Nat → Nat → Nat → Nat
  insert_r : Int

/-- The C function `create_glyph`: on success the glyph with format, extents and the
rasterised mask filled in, on failure the negative error code. -/
def create_glyph (face : wlt_face) (glyph : wlt_glyph) (ch : List Nat) (len : Nat)
    (env : render_env) : Except Int wlt_glyph :=
  let format := cairo_format_t.CAIRO_FORMAT_A8
  let glyph := { glyph with format := c2f format }
  let glyph := { glyph with width := (face.width * glyph.cwidth) % 4294967296 }
  let glyph := { glyph with stride := env.stride_for_width glyph.width }
  let glyph := { glyph with height := face.height }
  let size := ((glyph.stride * (glyph.height : Int)) % 4294967296).toNat
  if !env.buffer_alloc then .error (-ENOMEM)
  else if !env.surface_ok then .error (-ENOMEM)
  else if !env.cr_ok then .error (-ENOMEM)
  else if !env.utf8_ok ch len then .error (-ERANGE)
  else if env.line_count ch len = 0 then .error (-ERANGE)
  else .ok { glyph with buffer := (List.range size).map (fun i => env.ink ch len i % 256) }

/-- Result of `wlt_face_render`: the return value, the glyph stored through `out` (if any)
and the face afterwards. -/
structure render_result where
  r : Int
  out : Option wlt_glyph
  face : wlt_face
deriving DecidableEq, Repr

/-- The C function `wlt_face_render`.  `cwidth` is a `size_t`; the assignment to the
`unsigned int` field `glyph->cwidth` truncates it. -/
def wlt_face_render (face : wlt_face) (id : Nat) (ch : List Nat) (len cwidth : Nat)
    (env : render_env) : render_result :=
  match shl_htable_lookup_ulong face.glyphs id with
  | some g => { r := 0, out := some g, face := face }
  | none =>
    if len = 0 ∨ cwidth = 0 then { r := -EINVAL, out := none, face := face }
    else if !env.glyph_alloc then { r := -ENOMEM, out := none, face := face }
    else
      let glyph : wlt_glyph :=
        { id := id, cwidth := cwidth % 4294967296, format := .WLT_GLYPH_INVALID, width := 0,
          stride := 0, height := 0, buffer := [] }
      match create_glyph face glyph ch len env with
      | .error r => { r := r, out := none, face := face }
      | .ok glyph =>
        if env.insert_r < 0 then { r := env.insert_r, out := none, face := face }
        else
          { r := 0, out := some glyph,
            face := { face with glyphs := shl_htable_insert_ulong face.glyphs glyph } }

/-- Outcomes of the library calls made by `wlt_face_new`: whether `calloc` succeeds, the
pixel extents `rec.width`, `rec.height` (C `int`) pango measures for the probe string, and
the baseline of the layout in pango units (C `int`). -/
structure face_env where
  face_alloc : Bool
  rec_width : Int
  rec_height : Int
  layout_baseline : Int

/-- The constant `str_len` of `measure_pango`: the byte length of the probe string (52 ASCII
letters and 34 punctuation characters, two of which take two bytes). -/
def str_len : Nat := 88

/-- The C function `measure_pango`.  The width is computed in `size_t` (64 bits) and stored
in an `unsigned int`; the baseline is `PANGO_PIXELS_CEIL`, that is `((int)(b) + 1023) >> 10`
with the sum taken in a 32-bit `int` (it wraps for baselines within 1023 of `INT_MAX`), and
is stored in an `unsigned int`. -/
def measure_pango (face : wlt_face) (env : face_env) : wlt_face :=
  { face with
    width :=
      ((env.rec_width % 18446744073709551616 + ((str_len : Int) - 1)) % 18446744073709551616
        / (str_len : Int)).toNat % 4294967296,
    height := (env.rec_height % 4294967296).toNat,
    baseline := ((to_int32 (env.layout_baseline + 1023) / 1024) % 4294967296).toNat }

/-- The C function `init_pango`: the status and the measured face. -/
def init_pango (face : wlt_face) (env : face_env) : Int × wlt_face :=
  let face := measure_pango face env
  if face.width = 0 ∨ face.height = 0 then (-EINVAL, face) else (0, face)

/-- The C function `wlt_face_new`: the status and, on success, the new face. -/
def wlt_face_new (env : face_env) : Int × Option wlt_face :=
  if !env.face_alloc then (-ENOMEM, none)
  else
    let face : wlt_face := { glyphs := [], width := 0, height := 0, baseline := 0 }
    let res := init_pango face env
    if res.1 < 0 then (res.1, none) else (0, some res.2)

/-- The properties the data model states for a cached glyph of a face. -/
def glyph_inv (face : wlt_face) (g : wlt_glyph) : Prop :=
  (g.buffer.length : Int) = g.stride * (g.height : Int) ∧ g.width = face.width * g.cwidth ∧
    1 ≤ g.cwidth ∧ g.height = face.height ∧ g.format = wlt_glyph_format.WLT_GLYPH_A8

instance (face : wlt_face) (g : wlt_glyph) : Decidable (glyph_inv face g) := by
  unfold glyph_inv; infer_instance

/-! ## Draw driver (wlt_render.c) -/

/-- A C `double`: not-a-number, the infinities, or a finite value (a rational). -/
inductive c_double where
  | nan
  | neg_inf
  | finite (q : ℚ)
  | pos_inf
deriving DecidableEq

/-- The C comparison `a < b` on doubles; every comparison with NaN is false. -/
def c_double.lt : c_double → c_double → Bool
  | .finite a, .finite b => decide (a < b)
  | .neg_inf, .finite _ => true
  | .neg_inf, .pos_inf => true
  | .finite _, .pos_inf => true
  | _, _ => false

/-- Conversion of an `unsigned int` to `double` (exact). -/
def c_double.of_uint (n : Nat) : c_double := .finite (n : ℚ)

/-- The fields of libtsm's `struct tsm_screen_attr` that the renderer reads. -/
structure tsm_screen_attr where
  fr : Nat
  fg : Nat
  fb : Nat
  br : Nat
  bg : Nat
  bb : Nat
  inverse : Bool
deriving DecidableEq, Repr

/-- The C `struct wlt_draw_ctx`; `rend` and `face` are the objects the pointers refer to,
the cairo context, the screen and the vte are not modelled. -/
structure wlt_draw_ctx where
  debug : Bool
  rend : wlt_renderer
  face : wlt_face
  cell_width : Nat
  cell_height : Nat
  x1 : c_double
  y1 : c_double
  x2 : c_double
  y2 : c_double

/-- The C function `overlap`. -/
def overlap (ctx : wlt_draw_ctx) (x1 y1 x2 y2 : c_double) : Bool :=
  ctx.x1.lt x2 && x1.lt ctx.x2 && ctx.y1.lt y2 && y1.lt ctx.y2

/-- The value of the local `skip` of `wlt_renderer_draw_cell` after
`skip = overlap(ctx, x, y, x + ctx->cell_width, y + ctx->cell_height);
 skip = skip && age && rend->age && age <= rend->age;`. -/
def draw_cell_skip (ctx : wlt_draw_ctx) (posx posy age : Nat) : Bool :=
  let x := (posx * ctx.cell_width) % 4294967296
  let y := (posy * ctx.cell_height) % 4294967296
  let skip := overlap ctx (c_double.of_uint x) (c_double.of_uint y)
    (c_double.of_uint ((x + ctx.cell_width) % 4294967296))
    (c_double.of_uint ((y + ctx.cell_height) % 4294967296))
  skip && age != 0 && ctx.rend.age != 0 && decide (age ≤ ctx.rend.age)

/-- The part of `wlt_renderer_draw_cell` after the early return: colour selection, fill or
glyph blend, and the debug outline.  A non-negative status of `wlt_face_render` always comes
with a glyph; the `none` branch is unreachable. -/
def draw_cell_paint (ctx : wlt_draw_ctx) (id : Nat) (ch : List Nat) (len cwidth posx posy : Nat)
    (attr : tsm_screen_attr) (skip : Bool) (env : render_env) : wlt_draw_ctx :=
  let rend := ctx.rend
  let x := (posx * ctx.cell_width) % 4294967296
  let y := (posy * ctx.cell_height) % 4294967296
  let fr := if attr.inverse then attr.br else attr.fr
  let fg := if attr.inverse then attr.bg else attr.fg
  let fb := if attr.inverse then attr.bb else attr.fb
  let br := if attr.inverse then attr.fr else attr.br
  let bg := if attr.inverse then attr.fg else attr.bg
  let bb := if attr.inverse then attr.fb else attr.bb
  let w := (ctx.cell_width * cwidth) % 4294967296
  let ctx1 : wlt_draw_ctx :=
    if len = 0 then
      { ctx with rend := wlt_renderer_fill rend x y w ctx.cell_height br bg bb }
    else
      let res := wlt_face_render ctx.face id ch len cwidth env
      if res.r < 0 then
        { ctx with face := res.face,
                   rend := wlt_renderer_fill rend x y w ctx.cell_height br bg bb }
      else
        match res.out with
        | some glyph =>
          { ctx with face := res.face,
                     rend := wlt_renderer_blend rend glyph x y fr fg fb br bg bb }
        | none => { ctx with face := res.face }
  if !skip && ctx.debug then
    { ctx1 with rend := wlt_renderer_highlight ctx1.rend x y w ctx.cell_height }
  else ctx1

/-- The C function `wlt_renderer_draw_cell`: the return value and the draw context (renderer
and face) afterwards. -/
def wlt_renderer_draw_cell (ctx : wlt_draw_ctx) (id : Nat) (ch : List Nat)
    (len cwidth posx posy : Nat) (attr : tsm_screen_attr) (age : Nat) (env : render_env) :
    Int × wlt_draw_ctx :=
  let skip := draw_cell_skip ctx posx posy age
  if skip && !ctx.debug then (0, ctx)
  else (0, draw_cell_paint ctx id ch len cwidth posx posy attr skip env)

/-- One invocation of the draw callback by the screen: the arguments libtsm passes for a
cell, and the library outcomes met while the cell is drawn. -/
structure cell_visit where
  id : Nat
  ch : List Nat
  len : Nat
  cwidth : Nat
  posx : Nat
  posy : Nat
  attr : tsm_screen_attr
  age : Nat
  env : render_env

/-- The behaviour of libtsm's `tsm_screen_draw` on one call: it invokes the callback for the
given cell visits in order and returns an age. -/
def tsm_screen_draw (visits : List cell_visit) (new_age : Nat) (ctx : wlt_draw_ctx) :
    Nat × wlt_draw_ctx :=
  (new_age,
    visits.foldl
      (fun c v =>
        (wlt_renderer_draw_cell c v.id v.ch v.len v.cwidth v.posx v.posy v.attr v.age v.env).2)
      ctx)

/-- The C function `wlt_renderer_draw`, up to the store of the returned age; the blit onto
the host surface and the margin padding draw on the cairo context only. -/
def wlt_renderer_draw (ctx : wlt_draw_ctx) (visits : List cell_visit) (new_age : Nat) :
    wlt_draw_ctx :=
  let res := tsm_screen_draw visits new_age ctx
  { res.2 with rend := { res.2.rend with age := res.1 } }

/-- Pixel `(px, py)` lies in the rectangle `(x, y, w, h)` clipped to the framebuffer by the
rule of the drawing primitives; the clipped rectangle is empty when `x + w` or `y + h` wraps. -/
def in_clipped (rend : wlt_renderer) (x y w h px py : Nat) : Prop :=
  x ≤ px ∧ px < x + w ∧ px < rend.width ∧ y ≤ py ∧ py < y + h ∧ py < rend.height ∧
    x + w < 4294967296 ∧ y + h < 4294967296

/-! ## Example values -/

/-- An environment in which every library call succeeds: cairo's natural A8 stride (the width
rounded up to a multiple of 4), one laid-out line, an empty (all-zero) mask. -/
def env_ok : render_env :=
  { glyph_alloc := true, stride_for_width := fun w => (((w + 3) / 4 * 4 : Nat) : Int),
    buffer_alloc := true, surface_ok := true, cr_ok := true, utf8_ok := fun _ _ => true,
    line_count := fun _ _ => 1, ink := fun _ _ _ => 0, insert_r := 0 }

/-- An allocation environment in which every call succeeds, with cairo's natural ARGB32
stride `4 * width` and a zeroed block. -/
def realloc_env_ok : realloc_env :=
  { stride_for_width := fun w => ((4 * w : Nat) : Int), malloc_ok := true,
    garbage := fun _ => 0, surface_ok := true }

/-- A face with 10x10 cells and an empty cache. -/
def face_10 : wlt_face := { glyphs := [], width := 10, height := 10, baseline := 8 }

/-- A glyph of `face_10` with the given id: one cell wide, all-zero mask. -/
def glyph_10 (id : Nat) : wlt_glyph :=
  { id := id, cwidth := 1, format := .WLT_GLYPH_A8, width := 10, stride := 12, height := 10,
    buffer := List.replicate 120 0 }

/-- A 20x20 renderer with a zeroed buffer and the given age. -/
def rend_20 (age : Nat) : wlt_renderer :=
  { width := 20, height := 20, stride := 80, data := List.replicate 1600 0, age := age }

/-- A draw context over `rend_20 age` with 10x10 cells and the whole surface damaged. -/
def ctx_20 (debug : Bool) (age : Nat) : wlt_draw_ctx :=
  { debug := debug, rend := rend_20 age, face := face_10, cell_width := 10, cell_height := 10,
    x1 := .finite 0, y1 := .finite 0, x2 := .finite 20, y2 := .finite 20 }

/-- A white-on-black cell attribute. -/
def attr_plain : tsm_screen_attr :=
  { fr := 255, fg := 255, fb := 255, br := 0, bg := 0, bb := 0, inverse := false }

/-- A face with 3x1 cells and an empty cache. -/
def face_3 : wlt_face := { glyphs := [], width := 3, height := 1, baseline := 1 }

/-- An environment in which the allocation of the glyph record fails. -/
def env_fail : render_env := { env_ok with glyph_alloc := false }

/-- A 2x2 renderer with a zeroed buffer and the given age. -/
def rend_2 (age : Nat) : wlt_renderer :=
  { width := 2, height := 2, stride := 8, data := List.replicate 16 0, age := age }

/-- A draw context over `rend_2 age` with a single 2x2 cell and the whole surface damaged. -/
def ctx_2 (debug : Bool) (age : Nat) : wlt_draw_ctx :=
  { debug := debug, rend := rend_2 age, face := face_10, cell_width := 2, cell_height := 2,
    x1 := .finite 0, y1 := .finite 0, x2 := .finite 2, y2 := .finite 2 }

/-- A cell attribute with black foreground and red background. -/
def attr_red : tsm_screen_attr :=
  { fr := 0, fg := 0, fb := 0, br := 255, bg := 0, bb := 0, inverse := false }

/-- A measurement of the probe line: 880x10 pixels, baseline at 8 pixels (8192 units). -/
def face_env_ok : face_env :=
  { face_alloc := true, rec_width := 880, rec_height := 10, layout_baseline := 8192 }

/-- A measurement of the probe line whose baseline (12 pixels) lies below its height. -/
def face_env_low : face_env :=
  { face_alloc := true, rec_width := 880, rec_height := 10, layout_baseline := 12288 }

/-! ## Memory lemmas -/

theorem getElem?_store32 (buf : List Nat) (off : Int) (v k : Nat) :
    (store32 buf off v)[k]? =
      if covers off k ∧ k < buf.length then some (byte_of v (k - off.toNat))
      else buf[k]? := by
  unfold store32 covers
  by_cases h : off < 0
  · have : ¬ ((0 ≤ off ∧ off ≤ (k:Int) ∧ (k:Int) < off + 4) ∧ k < buf.length) := by omega
    simp [h, this]
  · simp only [h, if_false, List.getElem?_set, List.length_set]
    have hk : k < buf.length ∨ buf.length ≤ k := by omega
    rcases hk with hk | hk
    · have hc : off.toNat = k ∨ off.toNat + 1 = k ∨ off.toNat + 2 = k ∨ off.toNat + 3 = k ∨
          (k < off.toNat ∨ off.toNat + 4 ≤ k) := by omega
      rcases hc with hc | hc | hc | hc | hc
      · have e : k - off.toNat = 0 := by omega
        have c : ((0 ≤ off ∧ off ≤ (k:Int) ∧ (k:Int) < off + 4) ∧ k < buf.length) := by omega
        rw [if_neg (by omega), if_neg (by omega), if_neg (by omega), if_pos hc, if_pos (by omega),
          if_pos c, e]
      · have e : k - off.toNat = 1 := by omega
        have c : ((0 ≤ off ∧ off ≤ (k:Int) ∧ (k:Int) < off + 4) ∧ k < buf.length) := by omega
        rw [if_neg (by omega), if_neg (by omega), if_pos hc, if_pos (by omega),
          if_pos c, e]
      · have e : k - off.toNat = 2 := by omega
        have c : ((0 ≤ off ∧ off ≤ (k:Int) ∧ (k:Int) < off + 4) ∧ k < buf.length) := by omega
        rw [if_neg (by omega), if_pos hc, if_pos (by omega), if_pos c, e]
      · have e : k - off.toNat = 3 := by omega
        have c : ((0 ≤ off ∧ off ≤ (k:Int) ∧ (k:Int) < off + 4) ∧ k < buf.length) := by omega
        rw [if_pos hc, if_pos (by omega), if_pos c, e]
      · have c : ¬ ((0 ≤ off ∧ off ≤ (k:Int) ∧ (k:Int) < off + 4) ∧ k < buf.length) := by omega
        rw [if_neg (by omega), if_neg (by omega), if_neg (by omega), if_neg (by omega), if_neg c]
    · have c : ¬ ((0 ≤ off ∧ off ≤ (k:Int) ∧ (k:Int) < off + 4) ∧ k < buf.length) := by omega
      rw [if_neg c]
      have e : buf[k]? = none := List.getElem?_eq_none (by omega)
      rw [e]
      split_ifs <;> first | rfl | omega

theorem length_store32 (buf : List Nat) (off : Int) (v : Nat) :
    (store32 buf off v).length = buf.length := by
  unfold store32
  split <;> simp

theorem apply_stores_cons (buf : List Nat) (w : Int × Nat) (ws : List (Int × Nat)) :
    apply_stores buf (w :: ws) = apply_stores (store32 buf w.1 w.2) ws := rfl

theorem apply_stores_append (buf : List Nat) (ws ws2 : List (Int × Nat)) :
    apply_stores buf (ws ++ ws2) = apply_stores (apply_stores buf ws) ws2 := by
  simp [apply_stores, List.foldl_append]

theorem length_apply_stores (ws : List (Int × Nat)) (buf : List Nat) :
    (apply_stores buf ws).length = buf.length := by
  induction ws generalizing buf with
  | nil => rfl
  | cons w ws ih => rw [apply_stores_cons, ih, length_store32]

theorem apply_stores_frame (ws : List (Int × Nat)) (buf : List Nat) (k : Nat)
    (h : ∀ w ∈ ws, ¬ covers w.1 k) : (apply_stores buf ws)[k]? = buf[k]? := by
  induction ws generalizing buf with
  | nil => rfl
  | cons w ws ih =>
    rw [apply_stores_cons, ih _ (fun w2 hw2 => h w2 (List.mem_cons_of_mem _ hw2)),
      getElem?_store32, if_neg]
    intro hc
    exact h w (List.mem_cons_self _ _) hc.1

theorem apply_stores_hit (ws : List (Int × Nat)) (buf : List Nat) (k : Nat) (o : Int) (v : Nat)
    (hmem : (o, v) ∈ ws) (hc : covers o k) (hk : k < buf.length)
    (huniq : ∀ w ∈ ws, covers w.1 k → w = (o, v)) :
    (apply_stores buf ws)[k]? = some (byte_of v (k - o.toNat)) := by
  induction ws generalizing buf with
  | nil => simp at hmem
  | cons w ws ih =>
    rw [apply_stores_cons]
    by_cases hex : ∃ w2 ∈ ws, covers w2.1 k
    · obtain ⟨w2, hw2, hc2⟩ := hex
      have e := huniq w2 (List.mem_cons_of_mem _ hw2) hc2
      subst e
      exact ih _ hw2 (by rw [length_store32]; exact hk)
        (fun w3 hw3 h3 => huniq w3 (List.mem_cons_of_mem _ hw3) h3)
    · have hno : ∀ w2 ∈ ws, ¬ covers w2.1 k := fun w2 hw2 h2 => hex ⟨w2, hw2, h2⟩
      rw [apply_stores_frame ws _ k hno]
      have hw : w = (o, v) := by
        rcases List.mem_cons.1 hmem with e | e
        · exact e.symm
        · exact absurd hc (hno _ e)
      subst hw
      rw [getElem?_store32, if_pos ⟨hc, hk⟩]

theorem byte_of_sum (v : Nat) :
    byte_of v 0 % 256 + byte_of v 1 % 256 * 256 + byte_of v 2 % 256 * 65536
      + byte_of v 3 % 256 * 16777216 = v % 4294967296 := by
  simp only [byte_of]
  norm_num
  omega

theorem load32_apply_stores (ws : List (Int × Nat)) (buf : List Nat) (o : Int) (v : Nat)
    (hmem : (o, v) ∈ ws) (h0 : 0 ≤ o) (hlen : o + 4 ≤ (buf.length : Int))
    (huniq : ∀ w ∈ ws, o < w.1 + 4 → w.1 < o + 4 → w = (o, v)) :
    load32 (apply_stores buf ws) o = v % 4294967296 := by
  have hb : ∀ n, n < 4 → (apply_stores buf ws)[o.toNat + n]? = some (byte_of v n) := by
    intro n hn
    have := apply_stores_hit ws buf (o.toNat + n) o v hmem (by unfold covers; omega) (by omega)
      (fun w hw hcw => huniq w hw (by unfold covers at hcw; omega) (by unfold covers at hcw; omega))
    rw [this]
    congr 2
    omega
  unfold load32
  rw [if_neg (by omega)]
  simp only [List.getD_eq_getElem?_getD]
  have h1 := hb 0 (by omega)
  rw [Nat.add_zero] at h1
  rw [h1, hb 1 (by omega), hb 2 (by omega), hb 3 (by omega)]
  simp only [Option.getD_some]
  exact byte_of_sum v


/-! ## Store lists of the drawing primitives -/

theorem mul_succ_le (S : Int) (j j2 : Nat) (hS : 0 ≤ S) (h : j < j2) :
    (j : Int) * S + S ≤ (j2 : Int) * S := by
  have h1 : ((j : Int) + 1) ≤ (j2 : Int) := by omega
  have := mul_le_mul_of_nonneg_right h1 hS
  linarith

theorem grid_unique (S : Int) (cw i j i2 j2 : Nat) (hS : 4 * (cw : Int) ≤ S)
    (hi : i < cw) (hi2 : i2 < cw)
    (h1 : (j : Int) * S + 4 * (i : Int) < (j2 : Int) * S + 4 * (i2 : Int) + 4)
    (h2 : (j2 : Int) * S + 4 * (i2 : Int) < (j : Int) * S + 4 * (i : Int) + 4) :
    j = j2 ∧ i = i2 := by
  have hS0 : 0 ≤ S := by omega
  rcases Nat.lt_trichotomy j j2 with h | h | h
  · have := mul_succ_le S j j2 hS0 h
    omega
  · subst h
    omega
  · have := mul_succ_le S j2 j hS0 h
    omega

theorem mem_fill_row (dst : Int) (width out : Nat) (w : Int × Nat) :
    w ∈ fill_row dst width out ↔ ∃ i, i < width ∧ w = (dst + 4 * (i : Int), out) := by
  simp only [fill_row, List.mem_map, List.mem_range]
  constructor
  · rintro ⟨i, hi, rfl⟩; exact ⟨i, hi, rfl⟩
  · rintro ⟨i, hi, rfl⟩; exact ⟨i, hi, rfl⟩

theorem mem_fill_rows (stride : Int) (width out : Nat) (h : Nat) (dst : Int) (w : Int × Nat) :
    w ∈ fill_rows dst stride width out h ↔
      ∃ j i, j < h ∧ i < width ∧ w = (dst + (j : Int) * stride + 4 * (i : Int), out) := by
  induction h generalizing dst with
  | zero => simp [fill_rows]
  | succ h ih =>
    simp only [fill_rows, List.mem_append, mem_fill_row, ih]
    constructor
    · rintro (⟨i, hi, rfl⟩ | ⟨j, i, hj, hi, rfl⟩)
      · exact ⟨0, i, by omega, hi, by simp⟩
      · refine ⟨j + 1, i, by omega, hi, ?_⟩
        congr 1
        push_cast
        ring
    · rintro ⟨j, i, hj, hi, rfl⟩
      rcases j with _ | j
      · left; exact ⟨i, hi, by simp⟩
      · right
        refine ⟨j, i, by omega, hi, ?_⟩
        congr 1
        push_cast
        ring

theorem mem_blend_row (dst : Int) (mask : List Nat) (src : Int) (width fr fg fb br bg bb : Nat)
    (w : Int × Nat) :
    w ∈ blend_row dst mask src width fr fg fb br bg bb ↔
      ∃ i, i < width ∧
        w = (dst + 4 * (i : Int), blend_pixel (load8 mask (src + (i : Int))) fr fg fb br bg bb) := by
  simp only [blend_row, List.mem_map, List.mem_range]
  constructor
  · rintro ⟨i, hi, rfl⟩; exact ⟨i, hi, rfl⟩
  · rintro ⟨i, hi, rfl⟩; exact ⟨i, hi, rfl⟩

theorem mem_blend_rows (stride : Int) (mask : List Nat) (gstride : Int)
    (width fr fg fb br bg bb : Nat) (h : Nat) (dst src : Int) (w : Int × Nat) :
    w ∈ blend_rows dst stride mask src gstride width fr fg fb br bg bb h ↔
      ∃ j i, j < h ∧ i < width ∧
        w = (dst + (j : Int) * stride + 4 * (i : Int),
          blend_pixel (load8 mask (src + (j : Int) * gstride + (i : Int))) fr fg fb br bg bb) := by
  induction h generalizing dst src with
  | zero => simp [blend_rows]
  | succ h ih =>
    simp only [blend_rows, List.mem_append, mem_blend_row, ih]
    constructor
    · rintro (⟨i, hi, rfl⟩ | ⟨j, i, hj, hi, rfl⟩)
      · exact ⟨0, i, by omega, hi, by simp⟩
      · refine ⟨j + 1, i, by omega, hi, ?_⟩
        have e1 : dst + stride + (j : Int) * stride = dst + ((j + 1 : Nat) : Int) * stride := by
          push_cast; ring
        have e2 : src + gstride + (j : Int) * gstride = src + ((j + 1 : Nat) : Int) * gstride := by
          push_cast; ring
        rw [e1, e2]
    · rintro ⟨j, i, hj, hi, rfl⟩
      rcases j with _ | j
      · left; exact ⟨i, hi, by simp⟩
      · right
        refine ⟨j, i, by omega, hi, ?_⟩
        have e1 : dst + stride + (j : Int) * stride = dst + ((j + 1 : Nat) : Int) * stride := by
          push_cast; ring
        have e2 : src + gstride + (j : Int) * gstride = src + ((j + 1 : Nat) : Int) * gstride := by
          push_cast; ring
        rw [e1, e2]

/-- Effect of a list of stores laid out on a grid of `ch` scanlines of `cw` pixels. -/
theorem apply_stores_grid (buf : List Nat) (ws : List (Int × Nat)) (D S : Int) (cw ch : Nat)
    (val : Nat → Nat → Nat)
    (hmem : ∀ w, w ∈ ws ↔
      ∃ j i, j < ch ∧ i < cw ∧ w = (D + (j : Int) * S + 4 * (i : Int), val j i))
    (hD : 0 ≤ D) (hS : 4 * (cw : Int) ≤ S)
    (hin : ∀ j i, j < ch → i < cw → D + (j : Int) * S + 4 * (i : Int) + 4 ≤ (buf.length : Int)) :
    (∀ j i, j < ch → i < cw →
      load32 (apply_stores buf ws) (D + (j : Int) * S + 4 * (i : Int)) = val j i % 4294967296) ∧
    (∀ k : Nat, (¬ ∃ j i, j < ch ∧ i < cw ∧ covers (D + (j : Int) * S + 4 * (i : Int)) k) →
      (apply_stores buf ws)[k]? = buf[k]?) := by
  have hS0 : 0 ≤ S := by omega
  constructor
  · intro j i hj hi
    have hjS : 0 ≤ (j : Int) * S := mul_nonneg (by omega) hS0
    apply load32_apply_stores
    · exact (hmem _).2 ⟨j, i, hj, hi, rfl⟩
    · omega
    · exact hin j i hj hi
    · intro w hw h1 h2
      obtain ⟨j2, i2, hj2, hi2, rfl⟩ := (hmem w).1 hw
      simp only at h1 h2
      obtain ⟨rfl, rfl⟩ := grid_unique S cw i j i2 j2 hS hi hi2 (by omega) (by omega)
      rfl
  · intro k hk
    apply apply_stores_frame
    intro w hw hc
    obtain ⟨j2, i2, hj2, hi2, rfl⟩ := (hmem w).1 hw
    exact hk ⟨j2, i2, hj2, hi2, hc⟩


theorem clip_some (x w W c : Nat) (hw : w < 4294967296) (h : clip x w W = some c) :
    x + w < 4294967296 ∧ x < W ∧ 0 < w ∧ c = min w (W - x) := by
  unfold clip at h
  simp only at h
  split_ifs at h with h1 h2
  · simp only [Option.some.injEq] at h
    omega
  · simp only [Option.some.injEq] at h
    omega

theorem clip_eq (x w W : Nat) (hx : x < W) (hw : 0 < w) (hxw : x + w < 4294967296) :
    clip x w W = some (min w (W - x)) := by
  unfold clip
  simp only
  have e : (x + w) % 4294967296 = x + w := Nat.mod_eq_of_lt hxw
  rw [e]
  split_ifs with h1 h2
  · omega
  · congr 1; omega
  · congr 1; omega

theorem pack_eq (r g b : Nat) (hr : r < 256) (hg : g < 256) (hb : b < 256) :
    pack r g b = 255 <<< 24 ||| r <<< 16 ||| g <<< 8 ||| b := by
  unfold pack
  apply Nat.mod_eq_of_lt
  have h32 : (4294967296 : Nat) = 2 ^ 32 := by norm_num
  rw [h32]
  have hr2 : r <<< 16 < 2 ^ 32 := by rw [Nat.shiftLeft_eq]; omega
  have hg2 : g <<< 8 < 2 ^ 32 := by rw [Nat.shiftLeft_eq]; omega
  exact Nat.or_lt_two_pow (Nat.or_lt_two_pow (Nat.or_lt_two_pow (by decide) hr2) hg2) (by omega)

theorem dst_offset_eq (rend : wlt_renderer) (x y : Nat) (hv : rend.Valid)
    (hx : x < rend.width) (hy : y < rend.height) :
    dst_offset rend x y = (y : Int) * rend.stride + 4 * (x : Int) := by
  obtain ⟨h1, -, h3⟩ := hv
  have hS0 : 0 ≤ rend.stride := by omega
  have hyS : 0 ≤ (y : Int) * rend.stride := mul_nonneg (by omega) hS0
  have := mul_succ_le rend.stride y rend.height hS0 hy
  have e : rend.stride * (rend.height : Int) = (rend.height : Int) * rend.stride := mul_comm _ _
  unfold dst_offset
  rw [Int.emod_eq_of_lt (by omega) (by omega)]
  ring

/-- In-bounds and layout facts for a clipped rectangle on a valid renderer. -/
theorem rect_in_bounds (rend : wlt_renderer) (x y cw ch : Nat) (hv : rend.Valid)
    (hx : x + cw ≤ rend.width) (hy : y + ch ≤ rend.height) (j i : Nat) (hj : j < ch)
    (hi : i < cw) :
    (y : Int) * rend.stride + 4 * (x : Int) + (j : Int) * rend.stride + 4 * (i : Int) + 4
      ≤ (rend.data.length : Int) := by
  obtain ⟨h1, h2, h3⟩ := hv
  have hS0 : 0 ≤ rend.stride := by omega
  have := mul_succ_le rend.stride (y + j) rend.height hS0 (by omega)
  have e : rend.stride * (rend.height : Int) = (rend.height : Int) * rend.stride := mul_comm _ _
  have e2 : ((y + j : Nat) : Int) * rend.stride = (y : Int) * rend.stride + (j : Int) * rend.stride := by
    push_cast; ring
  omega


theorem fill_grid (rend : wlt_renderer) (x y w h r g b : Nat)
    (hv : rend.Valid) (hx : x < rend.width) (hy : y < rend.height) (hw : 0 < w) (hh : 0 < h)
    (hxw : x + w < 4294967296) (hyh : y + h < 4294967296) :
    (∀ j i, j < min h (rend.height - y) → i < min w (rend.width - x) →
      load32 (wlt_renderer_fill rend x y w h r g b).data
        ((y : Int) * rend.stride + 4 * (x : Int) + (j : Int) * rend.stride + 4 * (i : Int))
        = pack r g b % 4294967296) ∧
    (∀ k : Nat, (¬ ∃ j i, j < min h (rend.height - y) ∧ i < min w (rend.width - x) ∧
        covers ((y : Int) * rend.stride + 4 * (x : Int) + (j : Int) * rend.stride + 4 * (i : Int)) k) →
      (wlt_renderer_fill rend x y w h r g b).data[k]? = rend.data[k]?) := by
  have hS0 : 0 ≤ rend.stride := by have := hv.1; omega
  have hyS : 0 ≤ (y : Int) * rend.stride := mul_nonneg (by omega) hS0
  simp only [wlt_renderer_fill, wlt_renderer_fill_stores, clip_eq x w _ hx hw hxw,
    clip_eq y h _ hy hh hyh, dst_offset_eq rend x y hv hx hy]
  apply apply_stores_grid rend.data _ _ rend.stride (min w (rend.width - x))
    (min h (rend.height - y)) (fun _ _ => pack r g b)
  · intro w2
    exact mem_fill_rows _ _ _ _ _ _
  · omega
  · have := hv.1; omega
  · intro j i hj hi
    exact rect_in_bounds rend x y _ _ hv (by omega) (by omega) j i hj hi


theorem clip_none_of (x w W : Nat) (hw : w < 4294967296)
    (h : ¬ (x < W ∧ 0 < w ∧ x + w < 4294967296)) : clip x w W = none := by
  unfold clip
  simp only
  rw [if_pos]
  omega

theorem blend_channel_lt (f a b : Nat) (hf : f < 256) (ha : a < 256) (hb : b < 256) :
    blend_channel f a b < 256 := by
  unfold blend_channel
  simp only [Nat.shiftRight_eq_div_pow]
  have h1 : f * a ≤ 255 * a := Nat.mul_le_mul_right a (by omega)
  have h2 : b * (255 - a) ≤ 255 * (255 - a) := Nat.mul_le_mul_right _ (by omega)
  norm_num
  omega

theorem load8_lt (buf : List Nat) (off : Int) : load8 buf off < 256 := by
  unfold load8
  split
  · omega
  · exact Nat.mod_lt _ (by omega)

/-- The channel value of the blend as the claim words it: background for mask 0, foreground
for mask 255, the shortcut division otherwise. -/
theorem blend_pixel_eq (a fr fg fb br bg bb : Nat) :
    blend_pixel a fr fg fb br bg bb =
      pack (if a = 0 then br else if a = 255 then fr else blend_channel fr a br)
        (if a = 0 then bg else if a = 255 then fg else blend_channel fg a bg)
        (if a = 0 then bb else if a = 255 then fb else blend_channel fb a bb) := by
  unfold blend_pixel
  split_ifs <;> rfl

theorem blend_grid (rend : wlt_renderer) (glyph : wlt_glyph) (x y fr fg fb br bg bb : Nat)
    (hv : rend.Valid) (hx : x < rend.width) (hy : y < rend.height) (hw : 0 < glyph.width)
    (hh : 0 < glyph.height)
    (hxw : x + glyph.width < 4294967296) (hyh : y + glyph.height < 4294967296) :
    (∀ j i, j < min glyph.height (rend.height - y) → i < min glyph.width (rend.width - x) →
      load32 (wlt_renderer_blend rend glyph x y fr fg fb br bg bb).data
        ((y : Int) * rend.stride + 4 * (x : Int) + (j : Int) * rend.stride + 4 * (i : Int))
        = blend_pixel (load8 glyph.buffer (0 + (j : Int) * glyph.stride + (i : Int)))
            fr fg fb br bg bb % 4294967296) ∧
    (∀ k : Nat, (¬ ∃ j i, j < min glyph.height (rend.height - y) ∧
        i < min glyph.width (rend.width - x) ∧
        covers ((y : Int) * rend.stride + 4 * (x : Int) + (j : Int) * rend.stride + 4 * (i : Int)) k) →
      (wlt_renderer_blend rend glyph x y fr fg fb br bg bb).data[k]? = rend.data[k]?) := by
  have hS0 : 0 ≤ rend.stride := by have := hv.1; omega
  have hyS : 0 ≤ (y : Int) * rend.stride := mul_nonneg (by omega) hS0
  simp only [wlt_renderer_blend, wlt_renderer_blend_stores, clip_eq x _ _ hx hw hxw,
    clip_eq y _ _ hy hh hyh, dst_offset_eq rend x y hv hx hy]
  apply apply_stores_grid rend.data _ _ rend.stride (min glyph.width (rend.width - x))
    (min glyph.height (rend.height - y))
    (fun j i => blend_pixel (load8 glyph.buffer (0 + (j : Int) * glyph.stride + (i : Int)))
      fr fg fb br bg bb)
  · intro w2
    exact mem_blend_rows _ _ _ _ _ _ _ _ _ _ _ _ _ _
  · omega
  · have := hv.1; omega
  · intro j i hj hi
    exact rect_in_bounds rend x y _ _ hv (by omega) (by omega) j i hj hi

theorem blend_noop (rend : wlt_renderer) (glyph : wlt_glyph) (x y fr fg fb br bg bb : Nat)
    (hgw : glyph.width < 4294967296) (hgh : glyph.height < 4294967296)
    (h : ¬ (x < rend.width ∧ y < rend.height ∧ 0 < glyph.width ∧ 0 < glyph.height ∧
      x + glyph.width < 4294967296 ∧ y + glyph.height < 4294967296)) :
    wlt_renderer_blend rend glyph x y fr fg fb br bg bb = rend := by
  have : wlt_renderer_blend_stores rend glyph x y fr fg fb br bg bb = [] := by
    unfold wlt_renderer_blend_stores
    by_cases hx : x < rend.width ∧ 0 < glyph.width ∧ x + glyph.width < 4294967296
    · have hy : ¬ (y < rend.height ∧ 0 < glyph.height ∧ y + glyph.height < 4294967296) := by
        omega
      rw [clip_none_of y _ _ hgh hy]
      split <;> rfl
    · rw [clip_none_of x _ _ hgw hx]
  unfold wlt_renderer_blend
  rw [this]
  rfl

theorem load8_of_all (buf : List Nat) (c : Nat) (hc : c < 256) (hall : ∀ b ∈ buf, b = c)
    (off : Int) (h0 : 0 ≤ off) (h1 : off < (buf.length : Int)) : load8 buf off = c := by
  unfold load8
  rw [if_neg (by omega)]
  have hlt : off.toNat < buf.length := by omega
  rw [List.getD_eq_getElem?_getD, List.getElem?_eq_getElem hlt, Option.getD_some,
    hall _ (List.getElem_mem hlt)]
  exact Nat.mod_eq_of_lt hc

theorem glyph_index_in_bounds (g : wlt_glyph) (hv : g.Valid) (i j : Nat) (hi : i < g.width)
    (hj : j < g.height) :
    0 ≤ (j : Int) * g.stride + (i : Int) ∧
      (j : Int) * g.stride + (i : Int) < (g.buffer.length : Int) := by
  obtain ⟨h1, h2⟩ := hv
  have hS0 : 0 ≤ g.stride := by omega
  have hjS : 0 ≤ (j : Int) * g.stride := mul_nonneg (by omega) hS0
  have := mul_succ_le g.stride j g.height hS0 hj
  have e : g.stride * (g.height : Int) = (g.height : Int) * g.stride := mul_comm _ _
  omega


/-- Pixel contents after `wlt_renderer_blend`, in pixel coordinates. -/
theorem blend_pixels_general (rend : wlt_renderer) (glyph : wlt_glyph)
    (x y fr fg fb br bg bb : Nat)
    (hv : rend.Valid) (hgw : glyph.width < 4294967296) (hgh : glyph.height < 4294967296)
    (hfr : fr < 256) (hfg : fg < 256) (hfb : fb < 256)
    (hbr : br < 256) (hbg : bg < 256) (hbb : bb < 256) :
    (∀ i j, i < glyph.width → j < glyph.height → x + i < rend.width → y + j < rend.height →
      x + glyph.width < 4294967296 → y + glyph.height < 4294967296 →
      ∀ a, a = load8 glyph.buffer ((j : Int) * glyph.stride + (i : Int)) →
      load32 (wlt_renderer_blend rend glyph x y fr fg fb br bg bb).data
        (((y + j : Nat) : Int) * rend.stride + ((x + i : Nat) : Int) * 4)
        = 255 <<< 24
          ||| (if a = 0 then br else if a = 255 then fr
                else (fr * a + br * (255 - a) + 0x80
                      + ((fr * a + br * (255 - a) + 0x80) >>> 8)) >>> 8) <<< 16
          ||| (if a = 0 then bg else if a = 255 then fg
                else (fg * a + bg * (255 - a) + 0x80
                      + ((fg * a + bg * (255 - a) + 0x80) >>> 8)) >>> 8) <<< 8
          ||| (if a = 0 then bb else if a = 255 then fb
                else (fb * a + bb * (255 - a) + 0x80
                      + ((fb * a + bb * (255 - a) + 0x80) >>> 8)) >>> 8)) ∧
    (∀ k : Nat,
      (¬ ∃ i j, i < glyph.width ∧ j < glyph.height ∧ x + i < rend.width ∧ y + j < rend.height ∧
          x + glyph.width < 4294967296 ∧ y + glyph.height < 4294967296 ∧
          ((y + j : Nat) : Int) * rend.stride + ((x + i : Nat) : Int) * 4 ≤ (k : Int) ∧
          (k : Int) < ((y + j : Nat) : Int) * rend.stride + ((x + i : Nat) : Int) * 4 + 4) →
      (wlt_renderer_blend rend glyph x y fr fg fb br bg bb).data[k]? = rend.data[k]?) := by
  have hoff : ∀ i j : Nat,
      (y : Int) * rend.stride + 4 * (x : Int) + (j : Int) * rend.stride + 4 * (i : Int)
        = ((y + j : Nat) : Int) * rend.stride + ((x + i : Nat) : Int) * 4 := by
    intro i j; push_cast; ring
  by_cases hC : x < rend.width ∧ y < rend.height ∧ 0 < glyph.width ∧ 0 < glyph.height ∧
      x + glyph.width < 4294967296 ∧ y + glyph.height < 4294967296
  · obtain ⟨hx, hy, hw, hh, hxw, hyh⟩ := hC
    obtain ⟨h1, h2⟩ := blend_grid rend glyph x y fr fg fb br bg bb hv hx hy hw hh hxw hyh
    constructor
    · intro i j hi hj hxi hyj _ _ a ha
      have := h1 j i (by omega) (by omega)
      rw [hoff, zero_add, ← ha] at this
      rw [this, blend_pixel_eq]
      have hlt : a < 256 := ha ▸ load8_lt _ _
      have e : ∀ f b : Nat, f < 256 → b < 256 →
          (if a = 0 then b else if a = 255 then f else blend_channel f a b) < 256 := by
        intro f b hf hb
        split_ifs
        · exact hb
        · exact hf
        · exact blend_channel_lt f a b hf hlt hb
      rw [Nat.mod_eq_of_lt (by unfold pack; exact Nat.mod_lt _ (by omega)),
        pack_eq _ _ _ (e fr br hfr hbr) (e fg bg hfg hbg) (e fb bb hfb hbb)]
      rfl
    · intro k hk
      apply h2
      rintro ⟨j, i, hj, hi, hc⟩
      apply hk
      rw [hoff] at hc
      exact ⟨i, j, by omega, by omega, by omega, by omega, hxw, hyh, hc.2.1, hc.2.2⟩
  · rw [blend_noop rend glyph x y fr fg fb br bg bb hgw hgh hC]
    constructor
    · intro i j hi hj hxi hyj hxw hyh
      exact absurd ⟨by omega, by omega, by omega, by omega, hxw, hyh⟩ hC
    · intro k _
      rfl


/-- C2: on a renderer satisfying the data-model invariants, `wlt_renderer_fill` with
`x < width`, `y < height`, `w > 0`, `h > 0` and no 32-bit overflow in `x + w`, `y + h`
leaves the word `(0xff << 24) | (r << 16) | (g << 8) | b` in every pixel `(px, py)` of the
clipped rectangle (at byte offset `py * stride + px * 4`) and changes no other byte. -/
theorem wlt_renderer_fill_rectangle (rend : wlt_renderer) (x y w h r g b : Nat)
    (hv : rend.Valid) (hx : x < rend.width) (hy : y < rend.height) (hw : 0 < w) (hh : 0 < h)
    (hxw : x + w < 4294967296) (hyh : y + h < 4294967296)
    (hr : r < 256) (hg : g < 256) (hb : b < 256) :
    (∀ px py, x ≤ px → px < min (x + w) rend.width → y ≤ py → py < min (y + h) rend.height →
      load32 (wlt_renderer_fill rend x y w h r g b).data
        ((py : Int) * rend.stride + (px : Int) * 4)
        = 255 <<< 24 ||| r <<< 16 ||| g <<< 8 ||| b) ∧
    (∀ k : Nat,
      (¬ ∃ px py, x ≤ px ∧ px < min (x + w) rend.width ∧ y ≤ py ∧ py < min (y + h) rend.height ∧
          (py : Int) * rend.stride + (px : Int) * 4 ≤ (k : Int) ∧
          (k : Int) < (py : Int) * rend.stride + (px : Int) * 4 + 4) →
      (wlt_renderer_fill rend x y w h r g b).data[k]? = rend.data[k]?) := by
  obtain ⟨h1, h2⟩ := fill_grid rend x y w h r g b hv hx hy hw hh hxw hyh
  have hS0 : 0 ≤ rend.stride := by have := hv.1; omega
  constructor
  · intro px py hpx1 hpx2 hpy1 hpy2
    obtain ⟨i, rfl⟩ : ∃ i, px = x + i := ⟨px - x, by omega⟩
    obtain ⟨j, rfl⟩ : ∃ j, py = y + j := ⟨py - y, by omega⟩
    have := h1 j i (by omega) (by omega)
    have e : (y : Int) * rend.stride + 4 * (x : Int) + (j : Int) * rend.stride + 4 * (i : Int)
        = ((y + j : Nat) : Int) * rend.stride + ((x + i : Nat) : Int) * 4 := by
      push_cast; ring
    rw [e] at this
    rw [this, ← pack_eq r g b hr hg hb]
    unfold pack
    exact Nat.mod_mod _ _
  · intro k hk
    apply h2
    rintro ⟨j, i, hj, hi, hc⟩
    apply hk
    refine ⟨x + i, y + j, by omega, by omega, by omega, by omega, ?_⟩
    have e : (y : Int) * rend.stride + 4 * (x : Int) + (j : Int) * rend.stride + 4 * (i : Int)
        = ((y + j : Nat) : Int) * rend.stride + ((x + i : Nat) : Int) * 4 := by
      push_cast; ring
    rw [e] at hc
    exact ⟨hc.2.1, hc.2.2⟩

/-- Instance of C2: a 2x2 renderer, fill of a 5x1 rectangle at (1, 0), clipped to one pixel. -/
theorem wlt_renderer_fill_rectangle_witness :
    load32 (wlt_renderer_fill ⟨2, 2, 8, List.replicate 16 0, 0⟩ 1 0 5 1 1 2 3).data 4
      = 0xFF010203 :=
  (wlt_renderer_fill_rectangle ⟨2, 2, 8, List.replicate 16 0, 0⟩ 1 0 5 1 1 2 3
    (by decide) (by decide) (by decide) (by decide) (by decide) (by decide) (by decide)
    (by decide) (by decide) (by decide)).1 1 0 (by decide) (by decide) (by decide) (by decide)

/-- C1: on a renderer satisfying the data-model invariants, `wlt_renderer_blend` sets each
pixel `(x+i, y+j)` of the glyph rectangle clipped to the framebuffer (empty when `x + width`
or `y + height` wraps) to `(0xff << 24) | (r << 16) | (g << 8) | b`, where for the mask byte
`a = glyph.buffer[j*stride + i]` each channel is the background for `a = 0`, the foreground
for `a = 255`, and `(u + (u >> 8)) >> 8` with `u = f*a + b*(255-a) + 0x80` otherwise; every
byte outside those pixels is unchanged.  In particular a 10x10 glyph of all-128 mask bytes
with foreground (10,20,30) over background (200,200,200) gives (105,110,115) everywhere. -/
theorem wlt_renderer_blend_pixels (rend : wlt_renderer) (glyph : wlt_glyph)
    (x y fr fg fb br bg bb : Nat)
    (hv : rend.Valid) (hgw : glyph.width < 4294967296) (hgh : glyph.height < 4294967296)
    (hfr : fr < 256) (hfg : fg < 256) (hfb : fb < 256)
    (hbr : br < 256) (hbg : bg < 256) (hbb : bb < 256) :
    (∀ i j, i < glyph.width → j < glyph.height → x + i < rend.width → y + j < rend.height →
      x + glyph.width < 4294967296 → y + glyph.height < 4294967296 →
      ∀ a, a = load8 glyph.buffer ((j : Int) * glyph.stride + (i : Int)) →
      load32 (wlt_renderer_blend rend glyph x y fr fg fb br bg bb).data
        (((y + j : Nat) : Int) * rend.stride + ((x + i : Nat) : Int) * 4)
        = 255 <<< 24
          ||| (if a = 0 then br else if a = 255 then fr
                else (fr * a + br * (255 - a) + 0x80
                      + ((fr * a + br * (255 - a) + 0x80) >>> 8)) >>> 8) <<< 16
          ||| (if a = 0 then bg else if a = 255 then fg
                else (fg * a + bg * (255 - a) + 0x80
                      + ((fg * a + bg * (255 - a) + 0x80) >>> 8)) >>> 8) <<< 8
          ||| (if a = 0 then bb else if a = 255 then fb
                else (fb * a + bb * (255 - a) + 0x80
                      + ((fb * a + bb * (255 - a) + 0x80) >>> 8)) >>> 8)) ∧
    (∀ k : Nat,
      (¬ ∃ i j, i < glyph.width ∧ j < glyph.height ∧ x + i < rend.width ∧ y + j < rend.height ∧
          x + glyph.width < 4294967296 ∧ y + glyph.height < 4294967296 ∧
          ((y + j : Nat) : Int) * rend.stride + ((x + i : Nat) : Int) * 4 ≤ (k : Int) ∧
          (k : Int) < ((y + j : Nat) : Int) * rend.stride + ((x + i : Nat) : Int) * 4 + 4) →
      (wlt_renderer_blend rend glyph x y fr fg fb br bg bb).data[k]? = rend.data[k]?) ∧
    (∀ (r2 : wlt_renderer) (g2 : wlt_glyph), r2.Valid → r2.width = 10 → r2.height = 10 →
      g2.Valid → g2.width = 10 → g2.height = 10 → (∀ m ∈ g2.buffer, m = 128) →
      ∀ px py : Nat, px < 10 → py < 10 →
        load32 (wlt_renderer_blend r2 g2 0 0 10 20 30 200 200 200).data
          ((py : Int) * r2.stride + (px : Int) * 4)
          = 255 <<< 24 ||| 105 <<< 16 ||| 110 <<< 8 ||| 115) := by
  refine ⟨(blend_pixels_general rend glyph x y fr fg fb br bg bb hv hgw hgh hfr hfg hfb
    hbr hbg hbb).1, (blend_pixels_general rend glyph x y fr fg fb br bg bb hv hgw hgh hfr hfg
    hfb hbr hbg hbb).2, ?_⟩
  intro r2 g2 hr2 hw2 hh2 hg2 hgw2 hgh2 hall px py hpx hpy
  have hb := glyph_index_in_bounds g2 hg2 px py (by omega) (by omega)
  have ha := load8_of_all g2.buffer 128 (by omega) hall _ hb.1 hb.2
  have := (blend_pixels_general r2 g2 0 0 10 20 30 200 200 200 hr2 (by omega) (by omega)
    (by omega) (by omega) (by omega) (by omega) (by omega) (by omega)).1 px py (by omega)
    (by omega) (by omega) (by omega) (by omega) (by omega) 128 ha.symm
  simp only [Nat.zero_add] at this
  rw [this]
  decide

/-- Instance of C1: a half-mask 2x2 glyph blended onto a 2x2 renderer, pixel (1, 1). -/
theorem wlt_renderer_blend_pixels_witness :
    load32 (wlt_renderer_blend ⟨2, 2, 8, List.replicate 16 0, 0⟩
      ⟨1, 1, wlt_glyph_format.WLT_GLYPH_A8, 2, 4, 2, List.replicate 8 128⟩
      0 0 10 20 30 200 200 200).data 12 = 0xFF696E73 :=
  (wlt_renderer_blend_pixels ⟨2, 2, 8, List.replicate 16 0, 0⟩
    ⟨1, 1, wlt_glyph_format.WLT_GLYPH_A8, 2, 4, 2, List.replicate 8 128⟩
    0 0 10 20 30 200 200 200 (by decide) (by decide) (by decide) (by decide) (by decide)
    (by decide) (by decide) (by decide) (by decide)).1 1 1 (by decide) (by decide) (by decide)
    (by decide) (by decide) (by decide) 128 (by decide)

theorem clip_le (x w W c : Nat) (h : clip x w W = some c) : c ≤ w := by
  unfold clip at h
  simp only at h
  split_ifs at h with h1 h2
  · simp only [Option.some.injEq] at h
    omega
  · simp only [Option.some.injEq] at h
    omega

theorem blend_rows_const (stride : Int) (mask : List Nat) (gstride : Int)
    (width fr fg fb br bg bb c : Nat) (h : Nat) (dst src : Int)
    (hc : ∀ j i : Nat, j < h → i < width → load8 mask (src + (j : Int) * gstride + (i : Int)) = c) :
    blend_rows dst stride mask src gstride width fr fg fb br bg bb h
      = fill_rows dst stride width (blend_pixel c fr fg fb br bg bb) h := by
  induction h generalizing dst src with
  | zero => rfl
  | succ h ih =>
    simp only [blend_rows, fill_rows]
    congr 1
    · unfold blend_row fill_row
      apply List.map_congr_left
      intro i hi
      have := hc 0 i (by omega) (List.mem_range.1 hi)
      simp only [Nat.cast_zero, zero_mul, add_zero] at this
      rw [this]
    · apply ih
      intro j i hj hi
      have := hc (j + 1) i (by omega) hi
      have e : src + ((j + 1 : Nat) : Int) * gstride = src + gstride + (j : Int) * gstride := by
        push_cast; ring
      rw [e] at this
      exact this

theorem load8_of_all_zero (buf : List Nat) (hall : ∀ b ∈ buf, b = 0) (off : Int) :
    load8 buf off = 0 := by
  unfold load8
  split
  · rfl
  · rw [List.getD_eq_getElem?_getD]
    by_cases hlt : off.toNat < buf.length
    · rw [List.getElem?_eq_getElem hlt, Option.getD_some, hall _ (List.getElem_mem hlt)]
    · rw [List.getElem?_eq_none (by omega)]
      rfl

theorem blend_eq_fill_of_const (rend : wlt_renderer) (glyph : wlt_glyph)
    (x y fr fg fb br bg bb c r g b : Nat)
    (hpix : blend_pixel c fr fg fb br bg bb = pack r g b)
    (hc : ∀ j i : Nat, j < glyph.height → i < glyph.width →
      load8 glyph.buffer (0 + (j : Int) * glyph.stride + (i : Int)) = c) :
    wlt_renderer_blend rend glyph x y fr fg fb br bg bb
      = wlt_renderer_fill rend x y glyph.width glyph.height r g b := by
  unfold wlt_renderer_blend wlt_renderer_fill wlt_renderer_blend_stores wlt_renderer_fill_stores
  cases h1 : clip x glyph.width rend.width with
  | none => rfl
  | some cw =>
    cases h2 : clip y glyph.height rend.height with
    | none => rfl
    | some ch =>
      simp only
      have hcw := clip_le _ _ _ _ h1
      have hch := clip_le _ _ _ _ h2
      rw [blend_rows_const _ _ _ _ _ _ _ _ _ _ c ch _ _
        (fun j i hj hi => hc j i (by omega) (by omega)), hpix]

/-- C3: for every renderer, origin and glyph, `wlt_renderer_blend` with an all-0 mask yields
the same renderer as `wlt_renderer_fill(x, y, glyph.width, glyph.height, br, bg, bb)`, and with
an all-255 mask (of a glyph satisfying the glyph invariants) the same as the fill with the
foreground colour; this includes clipped and fully outside rectangles.  A 10x10 all-255 glyph
with foreground (10,20,30) gives 0xFF0A141E in every pixel of a 10x10 renderer. -/
theorem wlt_renderer_blend_eq_fill (rend : wlt_renderer) (glyph : wlt_glyph)
    (x y fr fg fb br bg bb : Nat) :
    ((∀ m ∈ glyph.buffer, m = 0) →
      wlt_renderer_blend rend glyph x y fr fg fb br bg bb
        = wlt_renderer_fill rend x y glyph.width glyph.height br bg bb) ∧
    (glyph.Valid → (∀ m ∈ glyph.buffer, m = 255) →
      wlt_renderer_blend rend glyph x y fr fg fb br bg bb
        = wlt_renderer_fill rend x y glyph.width glyph.height fr fg fb) ∧
    (rend.Valid → rend.width = 10 → rend.height = 10 →
      glyph.Valid → glyph.width = 10 → glyph.height = 10 → (∀ m ∈ glyph.buffer, m = 255) →
      ∀ px py : Nat, px < 10 → py < 10 →
        load32 (wlt_renderer_blend rend glyph 0 0 10 20 30 200 200 200).data
          ((py : Int) * rend.stride + (px : Int) * 4) = 0xFF0A141E) := by
  refine ⟨?_, ?_, ?_⟩
  · intro hall
    apply blend_eq_fill_of_const rend glyph x y fr fg fb br bg bb 0 br bg bb rfl
    intro j i _ _
    exact load8_of_all_zero _ hall _
  · intro hg hall
    apply blend_eq_fill_of_const rend glyph x y fr fg fb br bg bb 255 fr fg fb rfl
    intro j i hj hi
    have hb := glyph_index_in_bounds glyph hg i j hi hj
    rw [zero_add]
    exact load8_of_all _ 255 (by omega) hall _ hb.1 hb.2
  · intro hr hw hh hg hgw hgh hall px py hpx hpy
    have hb := glyph_index_in_bounds glyph hg px py (by omega) (by omega)
    have ha := load8_of_all glyph.buffer 255 (by omega) hall _ hb.1 hb.2
    have := (blend_pixels_general rend glyph 0 0 10 20 30 200 200 200 hr (by omega) (by omega)
      (by omega) (by omega) (by omega) (by omega) (by omega) (by omega)).1 px py (by omega)
      (by omega) (by omega) (by omega) (by omega) (by omega) 255 ha.symm
    simp only [Nat.zero_add] at this
    rw [this]
    decide

/-- Instance of C3: an all-255 2x2 glyph blended at (1, 1) of a 2x2 renderer (clipped to one
pixel) equals the foreground fill. -/
theorem wlt_renderer_blend_eq_fill_witness :
    wlt_renderer_blend ⟨2, 2, 8, List.replicate 16 0, 0⟩
        ⟨1, 1, wlt_glyph_format.WLT_GLYPH_A8, 2, 4, 2, List.replicate 8 255⟩
        1 1 10 20 30 200 200 200
      = wlt_renderer_fill ⟨2, 2, 8, List.replicate 16 0, 0⟩ 1 1 2 2 10 20 30 :=
  (wlt_renderer_blend_eq_fill ⟨2, 2, 8, List.replicate 16 0, 0⟩
    ⟨1, 1, wlt_glyph_format.WLT_GLYPH_A8, 2, 4, 2, List.replicate 8 255⟩
    1 1 10 20 30 200 200 200).2.1 (by decide) (by decide)

/-- The enumeration leaves the draw context alone when every visit takes the early return. -/
theorem tsm_screen_draw_all_skipped (visits : List cell_visit) (new_age : Nat)
    (ctx : wlt_draw_ctx) (hdbg : ctx.debug = false)
    (hall : ∀ v ∈ visits, draw_cell_skip ctx v.posx v.posy v.age = true) :
    tsm_screen_draw visits new_age ctx = (new_age, ctx) := by
  unfold tsm_screen_draw
  congr 1
  induction visits with
  | nil => rfl
  | cons v vs ih =>
    have hv := hall v (List.mem_cons_self _ _)
    rw [List.foldl_cons]
    have : (wlt_renderer_draw_cell ctx v.id v.ch v.len v.cwidth v.posx v.posy v.attr v.age
        v.env).2 = ctx := by
      unfold wlt_renderer_draw_cell
      simp [hv, hdbg]
    rw [this]
    exact ih (fun v2 hv2 => hall v2 (List.mem_cons_of_mem _ hv2))

/-- C4: a cell visit with `age != 0`, `renderer.age != 0`, `age <= renderer.age`, the cell
rectangle overlapping the damage rectangle and debug off returns success and leaves the
framebuffer and the glyph cache untouched; a frame whose visits all satisfy this leaves the
framebuffer byte-for-byte equal (and the cache unchanged). -/
theorem wlt_renderer_draw_cell_skipped (ctx : wlt_draw_ctx) (id : Nat) (ch : List Nat)
    (len cwidth posx posy : Nat) (attr : tsm_screen_attr) (age : Nat) (env : render_env)
    (hage : age ≠ 0) (hrage : ctx.rend.age ≠ 0) (hle : age ≤ ctx.rend.age)
    (hov : overlap ctx
      (c_double.of_uint (posx * ctx.cell_width % 4294967296))
      (c_double.of_uint (posy * ctx.cell_height % 4294967296))
      (c_double.of_uint ((posx * ctx.cell_width % 4294967296 + ctx.cell_width) % 4294967296))
      (c_double.of_uint ((posy * ctx.cell_height % 4294967296 + ctx.cell_height) % 4294967296))
      = true)
    (hdbg : ctx.debug = false) :
    (wlt_renderer_draw_cell ctx id ch len cwidth posx posy attr age env).1 = 0 ∧
    (wlt_renderer_draw_cell ctx id ch len cwidth posx posy attr age env).2.rend = ctx.rend ∧
    (wlt_renderer_draw_cell ctx id ch len cwidth posx posy attr age env).2.face = ctx.face ∧
    (∀ (visits : List cell_visit) (new_age : Nat),
      (∀ v ∈ visits, v.age ≠ 0 ∧ v.age ≤ ctx.rend.age ∧
        overlap ctx
          (c_double.of_uint (v.posx * ctx.cell_width % 4294967296))
          (c_double.of_uint (v.posy * ctx.cell_height % 4294967296))
          (c_double.of_uint
            ((v.posx * ctx.cell_width % 4294967296 + ctx.cell_width) % 4294967296))
          (c_double.of_uint
            ((v.posy * ctx.cell_height % 4294967296 + ctx.cell_height) % 4294967296))
          = true) →
      (wlt_renderer_draw ctx visits new_age).rend.data = ctx.rend.data ∧
      (wlt_renderer_draw ctx visits new_age).face = ctx.face) := by
  have hskip : ∀ px py a, a ≠ 0 → a ≤ ctx.rend.age →
      overlap ctx
        (c_double.of_uint (px * ctx.cell_width % 4294967296))
        (c_double.of_uint (py * ctx.cell_height % 4294967296))
        (c_double.of_uint ((px * ctx.cell_width % 4294967296 + ctx.cell_width) % 4294967296))
        (c_double.of_uint ((py * ctx.cell_height % 4294967296 + ctx.cell_height) % 4294967296))
        = true → draw_cell_skip ctx px py a = true := by
    intro px py a ha hle2 ho
    unfold draw_cell_skip
    simp only []
    rw [ho]
    simp [ha, hrage, hle2]
  have h1 : wlt_renderer_draw_cell ctx id ch len cwidth posx posy attr age env = (0, ctx) := by
    unfold wlt_renderer_draw_cell
    simp [hskip posx posy age hage hle hov, hdbg]
  refine ⟨by rw [h1], by rw [h1], by rw [h1], ?_⟩
  intro visits new_age hall
  unfold wlt_renderer_draw
  rw [tsm_screen_draw_all_skipped visits new_age ctx hdbg
    (fun v hv => hskip v.posx v.posy v.age (hall v hv).1 (hall v hv).2.1 (hall v hv).2.2)]
  exact ⟨rfl, rfl⟩
/-- Instance of C4: cell (1, 0) of age 3 on a renderer of age 5, full damage, debug off. -/
theorem wlt_renderer_draw_cell_skipped_witness :
    (wlt_renderer_draw_cell (ctx_20 false 5) 65 [65] 1 1 1 0 attr_plain 3 env_ok).2.rend
      = rend_20 5 :=
  (wlt_renderer_draw_cell_skipped (ctx_20 false 5) 65 [65] 1 1 1 0 attr_plain 3 env_ok
    (by decide) (by decide) (by decide) (by decide) (by decide)).2.1

/-- C6: after `wlt_renderer_draw` the renderer's age is the age returned by the screen's
cell enumeration on that call, whatever the age before and whatever the callbacks did. -/
theorem wlt_renderer_draw_age (ctx : wlt_draw_ctx) (visits : List cell_visit) (new_age : Nat) :
    (wlt_renderer_draw ctx visits new_age).rend.age = new_age ∧
    (wlt_renderer_draw ctx visits new_age).rend.age = (tsm_screen_draw visits new_age ctx).1 := by
  exact ⟨rfl, rfl⟩

/-- Lookup after insertion finds the inserted glyph under its id. -/
theorem lookup_insert_self (glyphs : List wlt_glyph) (g : wlt_glyph) :
    shl_htable_lookup_ulong (shl_htable_insert_ulong glyphs g) g.id = some g := by
  simp [shl_htable_lookup_ulong, shl_htable_insert_ulong]

/-- Lookup of another id is not affected by an insertion. -/
theorem lookup_insert_ne (glyphs : List wlt_glyph) (g : wlt_glyph) (id : Nat) (h : g.id ≠ id) :
    shl_htable_lookup_ulong (shl_htable_insert_ulong glyphs g) id
      = shl_htable_lookup_ulong glyphs id := by
  simp [shl_htable_lookup_ulong, shl_htable_insert_ulong, h]

/-- A lookup result is keyed by the id looked up. -/
theorem lookup_id (glyphs : List wlt_glyph) (g : wlt_glyph) (id : Nat)
    (h : shl_htable_lookup_ulong glyphs id = some g) : g.id = id := by
  unfold shl_htable_lookup_ulong at h
  have := List.find?_some h
  simpa using this

/-- The glyph built by a successful `create_glyph` keeps the id and multiplier it was given. -/
theorem create_glyph_ok (face : wlt_face) (glyph g : wlt_glyph) (ch : List Nat) (len : Nat)
    (env : render_env) (h : create_glyph face glyph ch len env = .ok g) :
    g.id = glyph.id ∧ g.cwidth = glyph.cwidth ∧
      g.format = wlt_glyph_format.WLT_GLYPH_A8 ∧
      g.width = face.width * glyph.cwidth % 4294967296 ∧
      g.stride = env.stride_for_width (face.width * glyph.cwidth % 4294967296) ∧
      g.height = face.height ∧
      g.buffer.length = ((g.stride * (g.height : Int)) % 4294967296).toNat := by
  unfold create_glyph at h
  simp only at h
  split_ifs at h
  simp only [Except.ok.injEq] at h
  subst h
  simp [c2f]


/-- A failing `create_glyph` reports a negative error code. -/
theorem create_glyph_error (face : wlt_face) (glyph : wlt_glyph) (ch : List Nat) (len : Nat)
    (env : render_env) (r : Int) (h : create_glyph face glyph ch len env = .error r) : r < 0 := by
  unfold create_glyph at h
  simp only at h
  split_ifs at h <;> simp only [Except.error.injEq, reduceCtorEq] at h <;> subst h <;> decide

/-- Case analysis of `wlt_face_render`: cache hit, failure, or insertion of a fresh glyph. -/
theorem wlt_face_render_cases (face : wlt_face) (id : Nat) (ch : List Nat) (len cwidth : Nat)
    (env : render_env) :
    (∃ g, shl_htable_lookup_ulong face.glyphs id = some g ∧
      wlt_face_render face id ch len cwidth env = ⟨0, some g, face⟩) ∨
    (shl_htable_lookup_ulong face.glyphs id = none ∧
      (wlt_face_render face id ch len cwidth env).r < 0 ∧
      (wlt_face_render face id ch len cwidth env).out = none ∧
      (wlt_face_render face id ch len cwidth env).face = face) ∨
    (shl_htable_lookup_ulong face.glyphs id = none ∧ len ≠ 0 ∧ cwidth ≠ 0 ∧
      ∃ g, create_glyph face
          { id := id, cwidth := cwidth % 4294967296, format := .WLT_GLYPH_INVALID, width := 0,
            stride := 0, height := 0, buffer := [] } ch len env = .ok g ∧
        wlt_face_render face id ch len cwidth env
          = ⟨0, some g, { face with glyphs := shl_htable_insert_ulong face.glyphs g }⟩) := by
  unfold wlt_face_render
  cases hl : shl_htable_lookup_ulong face.glyphs id with
  | some g => exact Or.inl ⟨g, rfl, rfl⟩
  | none =>
    right
    simp only
    by_cases h1 : len = 0 ∨ cwidth = 0
    · left
      rw [if_pos h1]
      exact ⟨trivial, by show -EINVAL < 0; decide, rfl, rfl⟩
    · rw [if_neg h1]
      by_cases h2 : (!env.glyph_alloc) = true
      · left
        rw [if_pos h2]
        exact ⟨trivial, by show -ENOMEM < 0; decide, rfl, rfl⟩
      · rw [if_neg h2]
        cases hc : create_glyph face
          { id := id, cwidth := cwidth % 4294967296, format := .WLT_GLYPH_INVALID, width := 0,
            stride := 0, height := 0, buffer := [] } ch len env with
        | error r =>
          left
          exact ⟨trivial, create_glyph_error _ _ _ _ _ _ hc, rfl, rfl⟩
        | ok g =>
          simp only
          by_cases h3 : env.insert_r < 0
          · left
            rw [if_pos h3]
            exact ⟨trivial, h3, rfl, rfl⟩
          · right
            rw [if_neg h3]
            exact ⟨trivial, by omega, by omega, g, rfl, rfl⟩

/-- C7: when a glyph with the id is cached, `wlt_face_render` succeeds, returns that cached
glyph and leaves the face (hence the cache, its keys and its size) unchanged, whatever the
code points, the multiplier and the outcomes of the shaper and allocator calls would be; and
after a successful render of an id, a second render of it returns the same glyph and leaves
the face as the first render left it. -/
theorem wlt_face_render_cached (face : wlt_face) (id : Nat) (g : wlt_glyph)
    (hc : shl_htable_lookup_ulong face.glyphs id = some g) :
    (∀ (ch : List Nat) (len cwidth : Nat) (env : render_env),
      wlt_face_render face id ch len cwidth env = ⟨0, some g, face⟩) ∧
    (∀ (f0 : wlt_face) (ch : List Nat) (len cwidth : Nat) (env : render_env),
      0 ≤ (wlt_face_render f0 id ch len cwidth env).r →
      ∀ (ch2 : List Nat) (len2 cwidth2 : Nat) (env2 : render_env),
        wlt_face_render (wlt_face_render f0 id ch len cwidth env).face id ch2 len2 cwidth2 env2
          = ⟨0, (wlt_face_render f0 id ch len cwidth env).out,
              (wlt_face_render f0 id ch len cwidth env).face⟩) := by
  have hit : ∀ (f : wlt_face) (g2 : wlt_glyph), shl_htable_lookup_ulong f.glyphs id = some g2 →
      ∀ (ch : List Nat) (len cwidth : Nat) (env : render_env),
      wlt_face_render f id ch len cwidth env = ⟨0, some g2, f⟩ := by
    intro f g2 h ch len cwidth env
    unfold wlt_face_render
    rw [h]
  refine ⟨hit face g hc, ?_⟩
  intro f0 ch len cwidth env hr ch2 len2 cwidth2 env2
  rcases wlt_face_render_cases f0 id ch len cwidth env with
    ⟨g2, hl, he⟩ | ⟨_, hneg, _, _⟩ | ⟨_, _, _, g2, hcg, he⟩
  · rw [he]
    exact hit f0 g2 hl ch2 len2 cwidth2 env2
  · omega
  · rw [he]
    simp only
    apply hit
    have hid : g2.id = id := (create_glyph_ok _ _ _ _ _ _ hcg).1
    have := lookup_insert_self f0.glyphs g2
    rw [hid] at this
    exact this

/-- Instance of C7: with glyph 7 cached, a render of id 7 returns it even with no code points. -/
theorem wlt_face_render_cached_witness :
    wlt_face_render { face_10 with glyphs := [glyph_10 7] } 7 [] 0 0 env_ok
      = ⟨0, some (glyph_10 7), { face_10 with glyphs := [glyph_10 7] }⟩ :=
  (wlt_face_render_cached { face_10 with glyphs := [glyph_10 7] } 7 (glyph_10 7)
    (by decide)).1 [] 0 0 env_ok

/-- C9 fails as stated: after id 7 has been rendered, a call for id 7 with no code points and
multiplier 0 succeeds (status 0) instead of failing with `-EINVAL`. -/
theorem wlt_face_render_einval_counterexample :
    (wlt_face_render (wlt_face_render face_10 7 [65] 1 1 env_ok).face 7 [] 0 0 env_ok).r = 0 ∧
    (wlt_face_render (wlt_face_render face_10 7 [65] 1 1 env_ok).face 7 [] 0 0 env_ok).r
      ≠ -EINVAL := by
  decide

/-- C9 (amended): `wlt_face_render` fails with `-EINVAL`, storing no glyph and leaving the
face unchanged, for every call in which the id is not cached and the cell-width multiplier is
0 or the code-point count is 0. -/
theorem wlt_face_render_einval (face : wlt_face) (id : Nat) (ch : List Nat) (len cwidth : Nat)
    (env : render_env) (habs : shl_htable_lookup_ulong face.glyphs id = none)
    (hz : cwidth = 0 ∨ len = 0) :
    wlt_face_render face id ch len cwidth env = ⟨-EINVAL, none, face⟩ := by
  unfold wlt_face_render
  rw [habs]
  simp only
  rw [if_pos (by omega)]

/-- Instance of C9 (amended): an uncached id with no code points. -/
theorem wlt_face_render_einval_witness :
    wlt_face_render face_10 7 [] 0 1 env_ok = ⟨-22, none, face_10⟩ :=
  wlt_face_render_einval face_10 7 [] 0 1 env_ok (by decide) (by decide)

/-- C10: the glyph cache only grows.  Every id cached before a `wlt_face_render` call is
cached afterwards with the same glyph; a failing call leaves the face (and its cache) exactly
as it was; a successful call on an absent id adds exactly one entry, keyed by that id, and
returns it. -/
theorem wlt_face_render_cache_grows (face : wlt_face) (id : Nat) (ch : List Nat)
    (len cwidth : Nat) (env : render_env) :
    (∀ (id2 : Nat) (g : wlt_glyph), shl_htable_lookup_ulong face.glyphs id2 = some g →
      shl_htable_lookup_ulong (wlt_face_render face id ch len cwidth env).face.glyphs id2
        = some g) ∧
    ((wlt_face_render face id ch len cwidth env).r < 0 →
      (wlt_face_render face id ch len cwidth env).face = face) ∧
    (0 ≤ (wlt_face_render face id ch len cwidth env).r →
      shl_htable_lookup_ulong face.glyphs id = none →
      ∃ g, (wlt_face_render face id ch len cwidth env).out = some g ∧ g.id = id ∧
        (wlt_face_render face id ch len cwidth env).face.glyphs
          = shl_htable_insert_ulong face.glyphs g ∧
        (wlt_face_render face id ch len cwidth env).face.glyphs.length
          = face.glyphs.length + 1 ∧
        shl_htable_lookup_ulong (wlt_face_render face id ch len cwidth env).face.glyphs id
          = some g ∧
        ∀ id2, id2 ≠ id →
          shl_htable_lookup_ulong (wlt_face_render face id ch len cwidth env).face.glyphs id2
            = shl_htable_lookup_ulong face.glyphs id2) := by
  rcases wlt_face_render_cases face id ch len cwidth env with
    ⟨g2, hl, he⟩ | ⟨hl, hneg, _, hf⟩ | ⟨hl, _, _, g2, hcg, he⟩
  · rw [he]
    refine ⟨fun id2 g h => h, fun _ => rfl, ?_⟩
    intro _ habs
    rw [hl] at habs
    exact absurd habs (by simp)
  · refine ⟨fun id2 g h => by rw [hf]; exact h, fun _ => hf, ?_⟩
    intro h0
    omega
  · have hid : g2.id = id := (create_glyph_ok _ _ _ _ _ _ hcg).1
    rw [he]
    refine ⟨?_, fun h => absurd h (by simp), ?_⟩
    · intro id2 g h
      simp only
      rw [lookup_insert_ne _ _ _ ?_]
      · exact h
      · intro e
        rw [hid] at e
        rw [← e, hl] at h
        exact absurd h (by simp)
    · intro _ _
      refine ⟨g2, rfl, hid, rfl, by simp [shl_htable_insert_ulong], ?_, ?_⟩
      · simp only
        rw [← hid]
        exact lookup_insert_self _ _
      · intro id2 hne
        simp only
        exact lookup_insert_ne _ _ _ (by rw [hid]; exact fun e => hne e.symm)

/-- Instance of C10: rendering id 7 on an empty cache adds one entry keyed 7. -/
theorem wlt_face_render_cache_grows_witness :
    ∃ g, (wlt_face_render face_10 7 [65] 1 1 env_ok).out = some g ∧ g.id = 7 ∧
        (wlt_face_render face_10 7 [65] 1 1 env_ok).face.glyphs
          = shl_htable_insert_ulong face_10.glyphs g ∧
        (wlt_face_render face_10 7 [65] 1 1 env_ok).face.glyphs.length
          = face_10.glyphs.length + 1 ∧
        shl_htable_lookup_ulong (wlt_face_render face_10 7 [65] 1 1 env_ok).face.glyphs 7
          = some g ∧
        ∀ id2, id2 ≠ 7 →
          shl_htable_lookup_ulong (wlt_face_render face_10 7 [65] 1 1 env_ok).face.glyphs id2
            = shl_htable_lookup_ulong face_10.glyphs id2 :=
  (wlt_face_render_cache_grows face_10 7 [65] 1 1 env_ok).2.2 (by decide) (by decide)


/-- C8 fails as stated: on a face with 3-pixel cells and an empty cache (where the invariant
holds), a render with multiplier 1431655766 succeeds and caches a glyph of width
`3 * 1431655766 mod 2^32 = 2`, which is not `face.width x multiplier`. -/
theorem glyph_inv_counterexample :
    (∀ g ∈ face_3.glyphs, glyph_inv face_3 g) ∧
    (wlt_face_render face_3 1 [65] 1 1431655766 env_ok).r = 0 ∧
    ¬ (∀ g ∈ (wlt_face_render face_3 1 [65] 1 1431655766 env_ok).face.glyphs,
        glyph_inv (wlt_face_render face_3 1 [65] 1 1431655766 env_ok).face g) := by
  decide

/-- C8 (amended): every cached glyph satisfies buffer length = stride x height,
width = face.width x multiplier, multiplier >= 1, height = face.height and format = A8;
this holds for an empty cache and is preserved by every `wlt_face_render` call whose
multiplier is below 2^32 with face.width x multiplier below 2^32 and for which the stride `s`
cairo reports for that width has `0 <= s x face.height < 2^32`. -/
theorem wlt_face_render_glyph_inv (face : wlt_face) (id : Nat) (ch : List Nat)
    (len cwidth : Nat) (env : render_env)
    (hinv : ∀ g ∈ face.glyphs, glyph_inv face g)
    (hcw : cwidth < 4294967296) (hw : face.width * cwidth < 4294967296)
    (hs0 : 0 ≤ env.stride_for_width (face.width * cwidth) * (face.height : Int))
    (hs1 : env.stride_for_width (face.width * cwidth) * (face.height : Int) < 4294967296) :
    (∀ g ∈ (wlt_face_render face id ch len cwidth env).face.glyphs,
      glyph_inv (wlt_face_render face id ch len cwidth env).face g) ∧
    (∀ f : wlt_face, f.glyphs = [] → ∀ g ∈ f.glyphs, glyph_inv f g) := by
  constructor
  · rcases wlt_face_render_cases face id ch len cwidth env with
      ⟨g2, hl, he⟩ | ⟨hl, hneg, _, hf⟩ | ⟨hl, _, hcw0, g2, hcg, he⟩
    · rw [he]; exact hinv
    · rw [hf]; exact hinv
    · rw [he]
      intro g hg
      simp only [shl_htable_insert_ulong, List.mem_cons] at hg
      rcases hg with rfl | hg
      · obtain ⟨-, h2, h3, h4, h5, h6, h7⟩ := create_glyph_ok _ _ _ _ _ _ hcg
        simp only at h2 h4 h5
        have e1 : cwidth % 4294967296 = cwidth := Nat.mod_eq_of_lt hcw
        rw [e1] at h2 h4 h5
        have e2 : face.width * cwidth % 4294967296 = face.width * cwidth := Nat.mod_eq_of_lt hw
        rw [e2] at h4 h5
        refine ⟨?_, ?_, ?_, h6, h3⟩
        · rw [h5, h6] at h7 ⊢
          rw [h7, Int.emod_eq_of_lt hs0 hs1]
          omega
        · show g.width = face.width * g.cwidth
          rw [h4, h2]
        · rw [h2]; omega
      · exact hinv g hg
  · intro f hf g hg
    rw [hf] at hg
    exact absurd hg (List.not_mem_nil _)

/-- Instance of C8 (amended): rendering id 7 with multiplier 1 on `face_10` caches a glyph
that satisfies the invariant. -/
theorem wlt_face_render_glyph_inv_witness :
    glyph_inv (wlt_face_render face_10 7 [65] 1 1 env_ok).face (glyph_10 7) :=
  (wlt_face_render_glyph_inv face_10 7 [65] 1 1 env_ok (by decide) (by decide) (by decide)
    (by decide) (by decide)).1 (glyph_10 7) (by decide)


/-- Pixel contents after `wlt_renderer_fill`, in pixel coordinates. -/
theorem fill_pixels_general (rend : wlt_renderer) (x y w h r g b : Nat)
    (hv : rend.Valid) (hx : x < rend.width) (hy : y < rend.height) (hw : 0 < w) (hh : 0 < h)
    (hxw : x + w < 4294967296) (hyh : y + h < 4294967296)
    (hr : r < 256) (hg : g < 256) (hb : b < 256) :
    (∀ px py, x ≤ px → px < min (x + w) rend.width → y ≤ py → py < min (y + h) rend.height →
      load32 (wlt_renderer_fill rend x y w h r g b).data
        ((py : Int) * rend.stride + (px : Int) * 4)
        = 255 <<< 24 ||| r <<< 16 ||| g <<< 8 ||| b) ∧
    (∀ k : Nat,
      (¬ ∃ px py, x ≤ px ∧ px < min (x + w) rend.width ∧ y ≤ py ∧ py < min (y + h) rend.height ∧
          (py : Int) * rend.stride + (px : Int) * 4 ≤ (k : Int) ∧
          (k : Int) < (py : Int) * rend.stride + (px : Int) * 4 + 4) →
      (wlt_renderer_fill rend x y w h r g b).data[k]? = rend.data[k]?) := by
  obtain ⟨h1, h2⟩ := fill_grid rend x y w h r g b hv hx hy hw hh hxw hyh
  have hoff : ∀ i j : Nat,
      (y : Int) * rend.stride + 4 * (x : Int) + (j : Int) * rend.stride + 4 * (i : Int)
        = ((y + j : Nat) : Int) * rend.stride + ((x + i : Nat) : Int) * 4 := by
    intro i j; push_cast; ring
  constructor
  · intro px py hpx1 hpx2 hpy1 hpy2
    obtain ⟨i, rfl⟩ : ∃ i, px = x + i := ⟨px - x, by omega⟩
    obtain ⟨j, rfl⟩ : ∃ j, py = y + j := ⟨py - y, by omega⟩
    have := h1 j i (by omega) (by omega)
    rw [hoff] at this
    rw [this, ← pack_eq r g b hr hg hb]
    unfold pack
    exact Nat.mod_mod _ _
  · intro k hk
    apply h2
    rintro ⟨j, i, hj, hi, hc⟩
    apply hk
    rw [hoff] at hc
    exact ⟨x + i, y + j, by omega, by omega, by omega, by omega, hc.2.1, hc.2.2⟩

/-- The callback on a cell that is not returned early, with code-point count 0. -/
theorem draw_cell_paint_background (ctx : wlt_draw_ctx) (id : Nat) (ch : List Nat)
    (cwidth posx posy : Nat) (attr : tsm_screen_attr) (env : render_env) :
    draw_cell_paint ctx id ch 0 cwidth posx posy attr false env =
      if ctx.debug then
        { ctx with
          rend :=
            wlt_renderer_highlight
              (wlt_renderer_fill ctx.rend (posx * ctx.cell_width % 4294967296)
                (posy * ctx.cell_height % 4294967296) (ctx.cell_width * cwidth % 4294967296)
                ctx.cell_height
                (if attr.inverse then attr.fr else attr.br)
                (if attr.inverse then attr.fg else attr.bg)
                (if attr.inverse then attr.fb else attr.bb))
              (posx * ctx.cell_width % 4294967296) (posy * ctx.cell_height % 4294967296)
              (ctx.cell_width * cwidth % 4294967296) ctx.cell_height }
      else
        { ctx with
          rend :=
            wlt_renderer_fill ctx.rend (posx * ctx.cell_width % 4294967296)
              (posy * ctx.cell_height % 4294967296) (ctx.cell_width * cwidth % 4294967296)
              ctx.cell_height
              (if attr.inverse then attr.fr else attr.br)
              (if attr.inverse then attr.fg else attr.bg)
              (if attr.inverse then attr.fb else attr.bb) } := by
  unfold draw_cell_paint
  cases hd : ctx.debug <;> simp

/-- C11: `wlt_renderer_draw_cell` on a background-only cell (code-point count 0) that is not
skipped, with debug off, returns 0, leaves the face and its cache untouched whatever the
library outcomes would be, and the renderer is `wlt_renderer_fill(column x cell_width,
row x cell_height, cell_width x multiplier, cell_height, background)` applied to the previous
one (products in `unsigned int`; the background is the attribute's background, or its
foreground when inverse is set).  On a 20x20 renderer with 10x10 cells, cell (1,0) with
background (255,0,0) sets pixels [10..20) x [0..10) to 0xFFFF0000 and changes no other byte. -/
theorem wlt_renderer_draw_cell_background (ctx : wlt_draw_ctx) (id : Nat) (ch : List Nat)
    (cwidth posx posy : Nat) (attr : tsm_screen_attr) (age : Nat) (env : render_env)
    (hskip : draw_cell_skip ctx posx posy age = false) (hdbg : ctx.debug = false) :
    (wlt_renderer_draw_cell ctx id ch 0 cwidth posx posy attr age env).1 = 0 ∧
    (wlt_renderer_draw_cell ctx id ch 0 cwidth posx posy attr age env).2.rend
      = wlt_renderer_fill ctx.rend (posx * ctx.cell_width % 4294967296)
          (posy * ctx.cell_height % 4294967296) (ctx.cell_width * cwidth % 4294967296)
          ctx.cell_height
          (if attr.inverse then attr.fr else attr.br)
          (if attr.inverse then attr.fg else attr.bg)
          (if attr.inverse then attr.fb else attr.bb) ∧
    (posx * ctx.cell_width < 4294967296 → posy * ctx.cell_height < 4294967296 →
      ctx.cell_width * cwidth < 4294967296 →
      (wlt_renderer_draw_cell ctx id ch 0 cwidth posx posy attr age env).2.rend
        = wlt_renderer_fill ctx.rend (posx * ctx.cell_width) (posy * ctx.cell_height)
            (ctx.cell_width * cwidth) ctx.cell_height
            (if attr.inverse then attr.fr else attr.br)
            (if attr.inverse then attr.fg else attr.bg)
            (if attr.inverse then attr.fb else attr.bb)) ∧
    (wlt_renderer_draw_cell ctx id ch 0 cwidth posx posy attr age env).2.face = ctx.face ∧
    (ctx.rend.Valid → ctx.rend.width = 20 → ctx.rend.height = 20 → ctx.cell_width = 10 →
      ctx.cell_height = 10 →
      (∀ px py : Nat, 10 ≤ px → px < 20 → py < 10 →
        load32 (wlt_renderer_draw_cell ctx id ch 0 1 1 0 attr_red 0 env).2.rend.data
          ((py : Int) * ctx.rend.stride + (px : Int) * 4) = 0xFFFF0000) ∧
      (∀ k : Nat,
        (¬ ∃ px py : Nat, 10 ≤ px ∧ px < 20 ∧ py < 10 ∧
            (py : Int) * ctx.rend.stride + (px : Int) * 4 ≤ (k : Int) ∧
            (k : Int) < (py : Int) * ctx.rend.stride + (px : Int) * 4 + 4) →
        (wlt_renderer_draw_cell ctx id ch 0 1 1 0 attr_red 0 env).2.rend.data[k]?
          = ctx.rend.data[k]?)) := by
  have hcell : ∀ (cw px py : Nat) (a : tsm_screen_attr) (ag : Nat),
      draw_cell_skip ctx px py ag = false →
      wlt_renderer_draw_cell ctx id ch 0 cw px py a ag env
        = (0,
            { ctx with
              rend :=
                wlt_renderer_fill ctx.rend (px * ctx.cell_width % 4294967296)
                  (py * ctx.cell_height % 4294967296) (ctx.cell_width * cw % 4294967296)
                  ctx.cell_height
                  (if a.inverse then a.fr else a.br)
                  (if a.inverse then a.fg else a.bg)
                  (if a.inverse then a.fb else a.bb) }) := by
    intro cw px py a ag hs
    unfold wlt_renderer_draw_cell
    simp only [hs, Bool.false_and, Bool.false_eq_true, if_false]
    rw [draw_cell_paint_background, hdbg]
    rfl
  have h := hcell cwidth posx posy attr age hskip
  refine ⟨by rw [h], by rw [h], ?_, by rw [h], ?_⟩
  · intro h1 h2 h3
    rw [h, Nat.mod_eq_of_lt h1, Nat.mod_eq_of_lt h2, Nat.mod_eq_of_lt h3]
  · intro hv hw hh hcw hch
    have hs0 : draw_cell_skip ctx 1 0 0 = false := by
      unfold draw_cell_skip
      simp
    rw [hcell 1 1 0 attr_red 0 hs0]
    simp only [hcw, hch, attr_red]
    have := fill_pixels_general ctx.rend 10 0 10 10 255 0 0 hv (by omega) (by omega)
      (by omega) (by omega) (by omega) (by omega) (by omega) (by omega) (by omega)
    obtain ⟨p1, p2⟩ := this
    constructor
    · intro px py h1 h2 h3
      have := p1 px py h1 (by omega) (by omega) (by omega)
      simpa using this
    · intro k hk
      apply p2
      rintro ⟨px, py, a1, a2, a3, a4, a5, a6⟩
      exact hk ⟨px, py, a1, by omega, by omega, a5, a6⟩

/-- Instance of C11: the single background-only cell of a 2x2 renderer. -/
theorem wlt_renderer_draw_cell_background_witness :
    (wlt_renderer_draw_cell (ctx_2 false 5) 0 [] 0 1 0 0 attr_red 0 env_ok).2.rend
      = wlt_renderer_fill (rend_2 5) 0 0 2 2 255 0 0 :=
  (wlt_renderer_draw_cell_background (ctx_2 false 5) 0 [] 1 0 0 attr_red 0 env_ok
    (by decide) (by decide)).2.1


/-- C12: inverse video is a colour swap.  A visit whose attribute has inverse set gives the
same return value, renderer and face as the same visit with inverse clear and (fr,fg,fb),
(br,bg,bb) exchanged; and whether the callback returns early is decided by `draw_cell_skip`
and the debug flag, which do not read the attribute. -/
theorem wlt_renderer_draw_cell_inverse (ctx : wlt_draw_ctx) (id : Nat) (ch : List Nat)
    (len cwidth posx posy : Nat) (attr : tsm_screen_attr) (age : Nat) (env : render_env)
    (hinv : attr.inverse = true) :
    wlt_renderer_draw_cell ctx id ch len cwidth posx posy attr age env
      = wlt_renderer_draw_cell ctx id ch len cwidth posx posy
          { fr := attr.br, fg := attr.bg, fb := attr.bb, br := attr.fr, bg := attr.fg,
            bb := attr.fb, inverse := false } age env ∧
    (∀ attr2 : tsm_screen_attr,
      wlt_renderer_draw_cell ctx id ch len cwidth posx posy attr2 age env
        = if draw_cell_skip ctx posx posy age && !ctx.debug then (0, ctx)
          else (0, draw_cell_paint ctx id ch len cwidth posx posy attr2
                    (draw_cell_skip ctx posx posy age) env)) := by
  constructor
  · unfold wlt_renderer_draw_cell draw_cell_paint
    simp [hinv]
  · intro attr2
    rfl

/-- Instance of C12: a red-on-black inverse cell equals the black-on-red plain cell. -/
theorem wlt_renderer_draw_cell_inverse_witness :
    wlt_renderer_draw_cell (ctx_2 false 0) 0 [] 0 1 0 0
        { fr := 255, fg := 0, fb := 0, br := 0, bg := 0, bb := 0, inverse := true } 0 env_ok
      = wlt_renderer_draw_cell (ctx_2 false 0) 0 [] 0 1 0 0
          { fr := 0, fg := 0, fb := 0, br := 255, bg := 0, bb := 0, inverse := false } 0 env_ok :=
  (wlt_renderer_draw_cell_inverse (ctx_2 false 0) 0 [] 0 1 0 0
    { fr := 255, fg := 0, fb := 0, br := 0, bg := 0, bb := 0, inverse := true } 0 env_ok
    (by decide)).1

/-- C13 fails as stated: with debug on and a cell that is not skip-eligible, a failing
`wlt_face_render` is followed by the fill and then by the debug outline, so the renderer is
not the result of the fill alone. -/
theorem wlt_renderer_draw_cell_fallback_counterexample :
    (wlt_face_render (ctx_2 true 0).face 65 [65] 1 1 env_fail).r < 0 ∧
    (wlt_renderer_draw_cell (ctx_2 true 0) 65 [65] 1 1 0 0 attr_plain 0 env_fail).2.rend
      ≠ wlt_renderer_fill (rend_2 0) 0 0 2 2 0 0 0 := by
  decide

/-- A successful `wlt_renderer_realloc` with a non-negative stride of at least `4 * width`
and `stride * height` below `2^31` establishes the renderer invariant. -/
theorem wlt_renderer_realloc_valid (rend : wlt_renderer) (width height : Nat)
    (env : realloc_env) (hok : (wlt_renderer_realloc rend width height env).1 = 0)
    (hs : 4 * (width : Int) ≤ env.stride_for_width width)
    (hb : env.stride_for_width width * (height : Int) < 2147483648) :
    (wlt_renderer_realloc rend width height env).2.Valid ∧
    (wlt_renderer_realloc rend width height env).2.width = width ∧
    (wlt_renderer_realloc rend width height env).2.height = height ∧
    (wlt_renderer_realloc rend width height env).2.stride = env.stride_for_width width ∧
    (wlt_renderer_realloc rend width height env).2.age = 0 := by
  unfold wlt_renderer_realloc at hok ⊢
  simp only at hok ⊢
  split_ifs at hok ⊢ with h1 h2
  · simp [ENOMEM] at hok
  · simp [ENOMEM] at hok
  · have h0 : 0 ≤ env.stride_for_width width * (height : Int) :=
      mul_nonneg (by omega) (by omega)
    refine ⟨⟨hs, ?_, lt_trans hb (by norm_num)⟩, rfl, rfl, rfl, rfl⟩
    simp only [List.length_map, List.length_range, to_int32]
    rw [Int.emod_eq_of_lt h0 (by omega), if_neg (by omega)]
    omega

/-- C14, the code at a failing input: `wlt_renderer_resize(rend, 30000, 30000)` with cairo's
stride 120000 and every library call succeeding returns 0 with width 30000, height 30000,
stride 120000 and age 0, but the buffer it allocated has `abs((int)(120000 * 30000))` =
694967296 bytes, not stride x height = 3600000000. -/
theorem wlt_renderer_resize_size_wraps :
    (wlt_renderer_resize (rend_2 0) 30000 30000 realloc_env_ok).1 = 0 ∧
    (wlt_renderer_resize (rend_2 0) 30000 30000 realloc_env_ok).2.width = 30000 ∧
    (wlt_renderer_resize (rend_2 0) 30000 30000 realloc_env_ok).2.height = 30000 ∧
    (wlt_renderer_resize (rend_2 0) 30000 30000 realloc_env_ok).2.stride = 120000 ∧
    (wlt_renderer_resize (rend_2 0) 30000 30000 realloc_env_ok).2.age = 0 ∧
    (wlt_renderer_resize (rend_2 0) 30000 30000 realloc_env_ok).2.data.length = 694967296 ∧
    ((wlt_renderer_resize (rend_2 0) 30000 30000 realloc_env_ok).2.data.length : Int)
      ≠ (wlt_renderer_resize (rend_2 0) 30000 30000 realloc_env_ok).2.stride
          * ((wlt_renderer_resize (rend_2 0) 30000 30000 realloc_env_ok).2.height : Int) := by
  have hlen : (wlt_renderer_resize (rend_2 0) 30000 30000 realloc_env_ok).2.data.length
      = 694967296 := by
    simp only [wlt_renderer_resize, wlt_renderer_realloc, realloc_env_ok, List.length_map,
      List.length_range, Bool.not_true, Bool.false_eq_true, if_false]
    decide
  refine ⟨rfl, rfl, rfl, rfl, rfl, hlen, ?_⟩
  rw [hlen]
  decide

/-- C15: `wlt_renderer_resize` is atomic on failure.  When the buffer or the surface cannot
be allocated the call returns `-ENOMEM` and the renderer (width, height, stride, buffer, age)
is exactly what it was; and every failing call is of this kind. -/
theorem wlt_renderer_resize_atomic (rend : wlt_renderer) (width height : Nat)
    (env : realloc_env) :
    ((env.malloc_ok = false ∨ env.surface_ok = false) →
      wlt_renderer_resize rend width height env = (-ENOMEM, rend)) ∧
    ((wlt_renderer_resize rend width height env).1 ≠ 0 →
      (wlt_renderer_resize rend width height env).1 = -ENOMEM ∧
      (wlt_renderer_resize rend width height env).2 = rend) := by
  unfold wlt_renderer_resize wlt_renderer_realloc
  simp only
  constructor
  · rintro (h | h)
    · simp [h]
    · cases hm : env.malloc_ok <;> simp [h]
  · intro hne
    split_ifs at hne ⊢ with h1 h2
    · exact ⟨rfl, rfl⟩
    · exact ⟨rfl, rfl⟩
    · exact absurd rfl hne

/-- Instance of C15: a resize whose `malloc` fails. -/
theorem wlt_renderer_resize_atomic_witness :
    wlt_renderer_resize (rend_2 7) 30 30 { realloc_env_ok with malloc_ok := false }
      = (-12, rend_2 7) :=
  (wlt_renderer_resize_atomic (rend_2 7) 30 30 { realloc_env_ok with malloc_ok := false }).1
    (by decide)

/-- C16: `wlt_renderer_fill` leaves the renderer unchanged whenever `x >= width` or
`y >= height`, whenever `x + w` or `y + h` exceeds the 32-bit range, and whenever `w = 0` or
`h = 0`; the wrap-around test `x + w <= x` of the clipping holds exactly when `w = 0` or
`x + w >= 2^32`, so the clipping returns early exactly in these cases or when `x >= limit`. -/
theorem wlt_renderer_fill_noop (rend : wlt_renderer) (x y w h r g b : Nat)
    (hx : x < 4294967296) (hw : w < 4294967296) (hh : h < 4294967296) :
    ((x ≥ rend.width ∨ y ≥ rend.height ∨ x + w ≥ 4294967296 ∨ y + h ≥ 4294967296 ∨
        w = 0 ∨ h = 0) →
      wlt_renderer_fill rend x y w h r g b = rend) ∧
    ((x + w) % 4294967296 ≤ x ↔ (w = 0 ∨ x + w ≥ 4294967296)) ∧
    (∀ limit : Nat, clip x w limit = none ↔ (w = 0 ∨ x + w ≥ 4294967296 ∨ x ≥ limit)) := by
  refine ⟨?_, by omega, ?_⟩
  · intro hc
    have : wlt_renderer_fill_stores rend x y w h r g b = [] := by
      unfold wlt_renderer_fill_stores
      by_cases hcx : x < rend.width ∧ 0 < w ∧ x + w < 4294967296
      · have hcy : ¬ (y < rend.height ∧ 0 < h ∧ y + h < 4294967296) := by omega
        rw [clip_none_of y _ _ hh hcy]
        split <;> rfl
      · rw [clip_none_of x _ _ hw hcx]
    unfold wlt_renderer_fill
    rw [this]
    rfl
  · intro limit
    unfold clip
    simp only
    split_ifs with h1 h2
    · simp only [true_iff]; omega
    · simp only [reduceCtorEq, false_iff]; omega
    · simp only [reduceCtorEq, false_iff]; omega

/-- Instance of C16: a fill whose `x + w` wraps leaves a 2x2 renderer unchanged. -/
theorem wlt_renderer_fill_noop_witness :
    wlt_renderer_fill (rend_2 0) 1 0 4294967295 1 255 0 0 = rend_2 0 :=
  (wlt_renderer_fill_noop (rend_2 0) 1 0 4294967295 1 255 0 0 (by decide) (by decide)
    (by decide)).1 (by decide)


/-- C17 fails as stated: when the shaper measures a 880x10 pixel probe line with a baseline
of 12 pixels (12288 pango units), `wlt_face_new` succeeds with width 10, height 10 and
baseline 12, which exceeds the height. -/
theorem wlt_face_new_baseline_counterexample :
    ∃ face : wlt_face, wlt_face_new face_env_low = (0, some face) ∧
      ¬ (face.baseline ≤ face.height) :=
  ⟨{ glyphs := [], width := 10, height := 10, baseline := 12 }, by decide, by decide⟩

/-- C17 (amended): every face `wlt_face_new` returns successfully has width > 0, height > 0
and an empty cache, and construction fails with `-EINVAL` when the measured width or height
is 0; the baseline is the shaper's baseline rounded up to pixels, which the code does not
compare with the height: it is at most the height whenever the shaper's baseline lies
between 0 and 1024 x the measured height (itself below 2^31) and the sum baseline + 1023
fits a 32-bit `int`; a baseline within 1023 of `INT_MAX` wraps and exceeds the height. -/
theorem wlt_face_new_metrics (env : face_env) (face : wlt_face)
    (hok : wlt_face_new env = (0, some face)) :
    0 < face.width ∧ 0 < face.height ∧ face.glyphs = [] ∧
    face = measure_pango { glyphs := [], width := 0, height := 0, baseline := 0 } env ∧
    (0 ≤ env.layout_baseline → env.layout_baseline ≤ 1024 * env.rec_height →
      env.rec_height < 2147483648 → env.layout_baseline + 1023 < 2147483648 →
      face.baseline ≤ face.height) ∧
    (∀ env3 : face_env, env3.face_alloc = true → env3.rec_width = 880 →
      env3.rec_height = 2097152 → env3.layout_baseline = 2147483647 →
      wlt_face_new env3
        = (0, some { glyphs := [], width := 10, height := 2097152, baseline := 4292870144 })) ∧
    (∀ env2 : face_env, env2.face_alloc = true →
      ((measure_pango { glyphs := [], width := 0, height := 0, baseline := 0 } env2).width = 0 ∨
        (measure_pango { glyphs := [], width := 0, height := 0, baseline := 0 } env2).height = 0) →
      wlt_face_new env2 = (-EINVAL, none)) := by
  have hnew : ∀ e : face_env, e.face_alloc = true →
      wlt_face_new e =
        if (measure_pango { glyphs := [], width := 0, height := 0, baseline := 0 } e).width = 0 ∨
            (measure_pango { glyphs := [], width := 0, height := 0, baseline := 0 } e).height = 0
        then (-EINVAL, none)
        else (0, some (measure_pango { glyphs := [], width := 0, height := 0, baseline := 0 } e)) := by
    intro e he
    unfold wlt_face_new init_pango
    simp only [he, Bool.not_true, Bool.false_eq_true, if_false]
    split_ifs with h1 h2 h3
    · rfl
    · simp [EINVAL] at h2
    · simp at h3
    · rfl
  have halloc : env.face_alloc = true := by
    by_contra hc
    unfold wlt_face_new at hok
    simp [hc, ENOMEM] at hok
  rw [hnew env halloc] at hok
  split_ifs at hok with h1
  · simp [EINVAL] at hok
  · simp only [Prod.mk.injEq, Option.some.injEq, true_and] at hok
    subst hok
    refine ⟨by omega, by omega, rfl, rfl, ?_, ?_, ?_⟩
    · intro hb0 hb1 hh hsum
      simp only [measure_pango, to_int32]
      have hh0 : 0 ≤ env.rec_height := by omega
      have e : (env.layout_baseline + 1023) % 4294967296 = env.layout_baseline + 1023 :=
        Int.emod_eq_of_lt (by omega) (by omega)
      rw [e, if_neg (by omega), Int.emod_eq_of_lt hh0 (by omega),
        Int.emod_eq_of_lt (by omega) (by omega)]
      omega
    · intro env3 ha hw3 hh3 hb3
      rw [hnew env3 ha]
      simp only [measure_pango, hw3, hh3, hb3]
      decide
    · intro env2 ha hz
      rw [hnew env2 ha, if_pos hz]

/-- Instance of C17 (amended): a 880x10 probe line gives the face `face_10`. -/
theorem wlt_face_new_metrics_witness : 0 < face_10.width ∧ 0 < face_10.height :=
  ⟨(wlt_face_new_metrics face_env_ok face_10 (by decide)).1,
   (wlt_face_new_metrics face_env_ok face_10 (by decide)).2.1⟩

/-- C18: the division-by-255 shortcut of `wlt_renderer_blend` is exact.  For every `t` with
`0 <= t <= 65025`, with `u = t + 0x80`, `(u + (u >> 8)) >> 8 = floor((t + 127) / 255)`; hence
for all 8-bit `f`, `b` and every mask value `a <= 255` the blended channel is
`floor((f*a + b*(255-a) + 127) / 255)`. -/
theorem blend_channel_exact (t f a b : Nat) (ht : t ≤ 65025) (hf : f < 256) (ha : a ≤ 255)
    (hb : b < 256) :
    ((t + 0x80) + ((t + 0x80) >>> 8)) >>> 8 = (t + 127) / 255 ∧
    blend_channel f a b = (f * a + b * (255 - a) + 127) / 255 := by
  have key : ∀ s : Nat, s ≤ 65025 →
      ((s + 0x80) + ((s + 0x80) >>> 8)) >>> 8 = (s + 127) / 255 := by
    intro s hs
    simp only [Nat.shiftRight_eq_div_pow]
    norm_num
    omega
  refine ⟨key t ht, ?_⟩
  have h1 : f * a ≤ 255 * a := Nat.mul_le_mul_right a (by omega)
  have h2 : b * (255 - a) ≤ 255 * (255 - a) := Nat.mul_le_mul_right _ (by omega)
  unfold blend_channel
  exact key _ (by omega)

/-- Instance of C18: the half-mask value t = 10*128 + 200*127 gives 105. -/
theorem blend_channel_exact_witness : blend_channel 10 128 200 = 105 :=
  (blend_channel_exact 26680 10 128 200 (by decide) (by decide) (by decide) (by decide)).2


theorem lt_length_of_getElem?_eq (b1 b2 : List Nat) (k : Nat) (h : b1[k]? = b2[k]?) :
    k < b1.length ↔ k < b2.length := by
  constructor
  · intro hk
    by_contra hc
    rw [List.getElem?_eq_getElem hk, List.getElem?_eq_none (by omega)] at h
    exact absurd h (by simp)
  · intro hk
    by_contra hc
    rw [List.getElem?_eq_getElem hk, List.getElem?_eq_none (by omega)] at h
    exact absurd h (by simp)

/-- Byte `k` after a list of stores depends only on byte `k` before. -/
theorem apply_stores_congr_at (ws : List (Int × Nat)) (b1 b2 : List Nat) (k : Nat)
    (h : b1[k]? = b2[k]?) : (apply_stores b1 ws)[k]? = (apply_stores b2 ws)[k]? := by
  induction ws generalizing b1 b2 with
  | nil => exact h
  | cons w ws ih =>
    rw [apply_stores_cons, apply_stores_cons]
    apply ih
    rw [getElem?_store32, getElem?_store32]
    have := lt_length_of_getElem?_eq b1 b2 k h
    by_cases hc : covers w.1 k ∧ k < b1.length
    · rw [if_pos hc, if_pos ⟨hc.1, this.1 hc.2⟩]
    · rw [if_neg hc, if_neg (fun hc2 => hc ⟨hc2.1, this.2 hc2.2⟩)]
      exact h

/-- Two lists of stores that touch disjoint bytes can be performed in either order. -/
theorem apply_stores_comm (buf : List Nat) (ws1 ws2 : List (Int × Nat))
    (hdis : ∀ a ∈ ws1, ∀ b ∈ ws2, a.1 + 4 ≤ b.1 ∨ b.1 + 4 ≤ a.1) :
    apply_stores (apply_stores buf ws1) ws2 = apply_stores (apply_stores buf ws2) ws1 := by
  apply List.ext_getElem?
  intro k
  by_cases h1 : ∃ a ∈ ws1, covers a.1 k
  · obtain ⟨a, ha, hca⟩ := h1
    have hno : ∀ b ∈ ws2, ¬ covers b.1 k := by
      intro b hb hcb
      have := hdis a ha b hb
      unfold covers at hca hcb
      omega
    rw [apply_stores_frame ws2 _ k hno]
    exact apply_stores_congr_at ws1 _ _ k (apply_stores_frame ws2 buf k hno).symm
  · have hno : ∀ a ∈ ws1, ¬ covers a.1 k := fun a ha hc => h1 ⟨a, ha, hc⟩
    rw [apply_stores_frame ws1 _ k hno]
    exact apply_stores_congr_at ws2 _ _ k (apply_stores_frame ws1 buf k hno)

/-- Offset layout without the buffer-length invariant: no wrap in `y * stride + x * 4`. -/
theorem dst_offset_eq_of_bound (rend : wlt_renderer) (x y : Nat)
    (hs : 4 * (rend.width : Int) ≤ rend.stride)
    (hb : rend.stride * (rend.height : Int) < 4294967296)
    (hx : x < rend.width) (hy : y < rend.height) :
    dst_offset rend x y = (y : Int) * rend.stride + 4 * (x : Int) := by
  have hS0 : 0 ≤ rend.stride := by omega
  have hyS : 0 ≤ (y : Int) * rend.stride := mul_nonneg (by omega) hS0
  have := mul_succ_le rend.stride y rend.height hS0 hy
  have e : rend.stride * (rend.height : Int) = (rend.height : Int) * rend.stride := mul_comm _ _
  unfold dst_offset
  rw [Int.emod_eq_of_lt (by omega) (by omega)]
  ring

/-- Every store of `wlt_renderer_fill` writes a pixel of the clipped rectangle. -/
theorem fill_stores_pixels (rend : wlt_renderer) (x y w h r g b : Nat)
    (hs : 4 * (rend.width : Int) ≤ rend.stride)
    (hb : rend.stride * (rend.height : Int) < 4294967296)
    (hw : w < 4294967296) (hh : h < 4294967296) (s : Int × Nat)
    (hmem : s ∈ wlt_renderer_fill_stores rend x y w h r g b) :
    ∃ px py, in_clipped rend x y w h px py ∧
      s.1 = (py : Int) * rend.stride + 4 * (px : Int) := by
  unfold wlt_renderer_fill_stores at hmem
  cases h1 : clip x w rend.width with
  | none => rw [h1] at hmem; simp at hmem
  | some cw =>
    cases h2 : clip y h rend.height with
    | none => rw [h1, h2] at hmem; simp at hmem
    | some ch =>
      rw [h1, h2] at hmem
      simp only at hmem
      obtain ⟨a1, a2, a3, a4⟩ := clip_some _ _ _ _ hw h1
      obtain ⟨b1, b2, b3, b4⟩ := clip_some _ _ _ _ hh h2
      rw [dst_offset_eq_of_bound rend x y hs hb a2 b2] at hmem
      obtain ⟨j, i, hj, hi, rfl⟩ := (mem_fill_rows _ _ _ _ _ _).1 hmem
      refine ⟨x + i, y + j, ?_, ?_⟩
      · unfold in_clipped; omega
      · push_cast; ring

/-- Every store of `wlt_renderer_blend` writes a pixel of the clipped glyph rectangle. -/
theorem blend_stores_pixels (rend : wlt_renderer) (glyph : wlt_glyph)
    (x y fr fg fb br bg bb : Nat)
    (hs : 4 * (rend.width : Int) ≤ rend.stride)
    (hb : rend.stride * (rend.height : Int) < 4294967296)
    (hw : glyph.width < 4294967296) (hh : glyph.height < 4294967296) (s : Int × Nat)
    (hmem : s ∈ wlt_renderer_blend_stores rend glyph x y fr fg fb br bg bb) :
    ∃ px py, in_clipped rend x y glyph.width glyph.height px py ∧
      s.1 = (py : Int) * rend.stride + 4 * (px : Int) := by
  unfold wlt_renderer_blend_stores at hmem
  cases h1 : clip x glyph.width rend.width with
  | none => rw [h1] at hmem; simp at hmem
  | some cw =>
    cases h2 : clip y glyph.height rend.height with
    | none => rw [h1, h2] at hmem; simp at hmem
    | some ch =>
      rw [h1, h2] at hmem
      simp only at hmem
      obtain ⟨a1, a2, a3, a4⟩ := clip_some _ _ _ _ hw h1
      obtain ⟨b1, b2, b3, b4⟩ := clip_some _ _ _ _ hh h2
      rw [dst_offset_eq_of_bound rend x y hs hb a2 b2] at hmem
      obtain ⟨j, i, hj, hi, rfl⟩ := (mem_blend_rows _ _ _ _ _ _ _ _ _ _ _ _ _ _).1 hmem
      refine ⟨x + i, y + j, ?_, ?_⟩
      · unfold in_clipped; omega
      · push_cast; ring

/-- Stores into pixels of disjoint clipped rectangles touch disjoint bytes. -/
theorem pixel_stores_disjoint (rend : wlt_renderer)
    (hs : 4 * (rend.width : Int) ≤ rend.stride)
    (x1 y1 w1 h1 x2 y2 w2 h2 : Nat)
    (hdis : ∀ px py, ¬ (in_clipped rend x1 y1 w1 h1 px py ∧ in_clipped rend x2 y2 w2 h2 px py))
    (a b : Int × Nat)
    (ha : ∃ px py, in_clipped rend x1 y1 w1 h1 px py ∧
      a.1 = (py : Int) * rend.stride + 4 * (px : Int))
    (hb : ∃ px py, in_clipped rend x2 y2 w2 h2 px py ∧
      b.1 = (py : Int) * rend.stride + 4 * (px : Int)) :
    a.1 + 4 ≤ b.1 ∨ b.1 + 4 ≤ a.1 := by
  obtain ⟨px, py, hin1, e1⟩ := ha
  obtain ⟨qx, qy, hin2, e2⟩ := hb
  by_contra hc
  have hpx : px < rend.width := hin1.2.2.1
  have hqx : qx < rend.width := hin2.2.2.1
  obtain ⟨rfl, rfl⟩ := grid_unique rend.stride rend.width px py qx qy hs hpx hqx
    (by omega) (by omega)
  exact hdis px py ⟨hin1, hin2⟩


theorem fill_stores_data (rend : wlt_renderer) (d : List Nat) (x y w h r g b : Nat) :
    wlt_renderer_fill_stores { rend with data := d } x y w h r g b
      = wlt_renderer_fill_stores rend x y w h r g b := rfl

theorem blend_stores_data (rend : wlt_renderer) (d : List Nat) (glyph : wlt_glyph)
    (x y fr fg fb br bg bb : Nat) :
    wlt_renderer_blend_stores { rend with data := d } glyph x y fr fg fb br bg bb
      = wlt_renderer_blend_stores rend glyph x y fr fg fb br bg bb := rfl

/-- C20: on a renderer with stride >= 4 x width (and byte offsets within 32 bits), two
primitive calls, `wlt_renderer_fill` or `wlt_renderer_blend` in any combination, whose
clipped rectangles are disjoint commute: either order yields the same renderer. -/
theorem primitives_commute (rend : wlt_renderer) (ga gb : wlt_glyph)
    (x1 y1 w1 h1 x2 y2 w2 h2 : Nat) (cr1 cg1 cb1 cr2 cg2 cb2 : Nat)
    (fr1 fg1 fb1 br1 bg1 bb1 fr2 fg2 fb2 br2 bg2 bb2 : Nat)
    (hs : 4 * (rend.width : Int) ≤ rend.stride)
    (hb : rend.stride * (rend.height : Int) < 4294967296)
    (hw1 : w1 < 4294967296) (hh1 : h1 < 4294967296)
    (hw2 : w2 < 4294967296) (hh2 : h2 < 4294967296)
    (hga : ga.width < 4294967296 ∧ ga.height < 4294967296)
    (hgb : gb.width < 4294967296 ∧ gb.height < 4294967296) :
    ((∀ px py, ¬ (in_clipped rend x1 y1 w1 h1 px py ∧ in_clipped rend x2 y2 w2 h2 px py)) →
      wlt_renderer_fill (wlt_renderer_fill rend x1 y1 w1 h1 cr1 cg1 cb1) x2 y2 w2 h2 cr2 cg2 cb2
        = wlt_renderer_fill (wlt_renderer_fill rend x2 y2 w2 h2 cr2 cg2 cb2)
            x1 y1 w1 h1 cr1 cg1 cb1) ∧
    ((∀ px py, ¬ (in_clipped rend x1 y1 w1 h1 px py ∧
        in_clipped rend x2 y2 gb.width gb.height px py)) →
      wlt_renderer_blend (wlt_renderer_fill rend x1 y1 w1 h1 cr1 cg1 cb1) gb x2 y2
          fr2 fg2 fb2 br2 bg2 bb2
        = wlt_renderer_fill (wlt_renderer_blend rend gb x2 y2 fr2 fg2 fb2 br2 bg2 bb2)
            x1 y1 w1 h1 cr1 cg1 cb1) ∧
    ((∀ px py, ¬ (in_clipped rend x1 y1 ga.width ga.height px py ∧
        in_clipped rend x2 y2 gb.width gb.height px py)) →
      wlt_renderer_blend (wlt_renderer_blend rend ga x1 y1 fr1 fg1 fb1 br1 bg1 bb1) gb x2 y2
          fr2 fg2 fb2 br2 bg2 bb2
        = wlt_renderer_blend (wlt_renderer_blend rend gb x2 y2 fr2 fg2 fb2 br2 bg2 bb2) ga x1 y1
            fr1 fg1 fb1 br1 bg1 bb1) := by
  refine ⟨?_, ?_, ?_⟩
  · intro hdis
    simp only [wlt_renderer_fill, fill_stores_data]
    congr 1
    apply apply_stores_comm
    intro a ha b hb2
    exact pixel_stores_disjoint rend hs x1 y1 w1 h1 x2 y2 w2 h2 hdis a b
      (fill_stores_pixels rend x1 y1 w1 h1 cr1 cg1 cb1 hs hb hw1 hh1 a ha)
      (fill_stores_pixels rend x2 y2 w2 h2 cr2 cg2 cb2 hs hb hw2 hh2 b hb2)
  · intro hdis
    simp only [wlt_renderer_fill, wlt_renderer_blend, fill_stores_data, blend_stores_data]
    congr 1
    apply apply_stores_comm
    intro a ha b hb2
    exact pixel_stores_disjoint rend hs x1 y1 w1 h1 x2 y2 gb.width gb.height hdis a b
      (fill_stores_pixels rend x1 y1 w1 h1 cr1 cg1 cb1 hs hb hw1 hh1 a ha)
      (blend_stores_pixels rend gb x2 y2 fr2 fg2 fb2 br2 bg2 bb2 hs hb hgb.1 hgb.2 b hb2)
  · intro hdis
    simp only [wlt_renderer_blend, blend_stores_data]
    congr 1
    apply apply_stores_comm
    intro a ha b hb2
    exact pixel_stores_disjoint rend hs x1 y1 ga.width ga.height x2 y2 gb.width gb.height hdis
      a b
      (blend_stores_pixels rend ga x1 y1 fr1 fg1 fb1 br1 bg1 bb1 hs hb hga.1 hga.2 a ha)
      (blend_stores_pixels rend gb x2 y2 fr2 fg2 fb2 br2 bg2 bb2 hs hb hgb.1 hgb.2 b hb2)

/-- Instance of C20: on a 2x2 renderer, a red fill of pixel (0, 0) and a blue fill of pixel
(1, 1) commute. -/
theorem primitives_commute_witness :
    wlt_renderer_fill (wlt_renderer_fill (rend_2 0) 0 0 1 1 255 0 0) 1 1 1 1 0 0 255
      = wlt_renderer_fill (wlt_renderer_fill (rend_2 0) 1 1 1 1 0 0 255) 0 0 1 1 255 0 0 :=
  (primitives_commute (rend_2 0) (glyph_10 1) (glyph_10 2) 0 0 1 1 1 1 1 1 255 0 0 0 0 255
    0 0 0 0 0 0 0 0 0 0 0 0 (by decide) (by decide) (by decide) (by decide) (by decide)
    (by decide) (by decide) (by decide)).1
    (fun px py h => by simp only [in_clipped] at h; omega)


/-- The words stored by the blend loop are the blend of the bytes at the load indices. -/
theorem blend_rows_loads_spec (stride : Int) (mask : List Nat) (gstride : Int)
    (width fr fg fb br bg bb : Nat) (h : Nat) (dst src : Int) :
    (blend_rows dst stride mask src gstride width fr fg fb br bg bb h).map Prod.snd
      = (blend_rows_loads src gstride width h).map
          (fun o => blend_pixel (load8 mask o) fr fg fb br bg bb) := by
  induction h generalizing dst src with
  | zero => rfl
  | succ h ih =>
    simp only [blend_rows, blend_rows_loads, List.map_append, ih]
    congr 1
    simp [blend_row, blend_row_loads]

theorem mem_blend_rows_loads (gstride : Int) (width : Nat) (h : Nat) (src : Int) (o : Int) :
    o ∈ blend_rows_loads src gstride width h ↔
      ∃ j i : Nat, j < h ∧ i < width ∧ o = src + (j : Int) * gstride + (i : Int) := by
  induction h generalizing src with
  | zero => simp [blend_rows_loads]
  | succ h ih =>
    simp only [blend_rows_loads, List.mem_append, blend_row_loads, List.mem_map, List.mem_range,
      ih]
    constructor
    · rintro (⟨i, hi, rfl⟩ | ⟨j, i, hj, hi, rfl⟩)
      · exact ⟨0, i, by omega, hi, by simp⟩
      · exact ⟨j + 1, i, by omega, hi, by push_cast; ring⟩
    · rintro ⟨j, i, hj, hi, rfl⟩
      rcases j with _ | j
      · left; exact ⟨i, hi, by simp⟩
      · right; exact ⟨j, i, by omega, hi, by push_cast; ring⟩

/-- Offsets stored by the scanline loop of `wlt_renderer_highlight`. -/
theorem mem_highlight_rows (stride : Int) (width out height : Nat) (hw1 : 1 ≤ width)
    (hw2 : width < 4294967296) (n : Nat) (dst : Int) (i0 : Nat) (s : Int × Nat)
    (hs : s ∈ highlight_rows dst stride width out height i0 n) :
    ∃ j i : Nat, j < n ∧ i < width ∧ s.1 = dst + (j : Int) * stride + 4 * (i : Int) := by
  induction n generalizing dst i0 with
  | zero => simp [highlight_rows] at hs
  | succ n ih =>
    simp only [highlight_rows, List.mem_append] at hs
    rcases hs with hs | hs
    · unfold highlight_row at hs
      simp only [List.mem_append, List.mem_cons, List.mem_singleton, List.not_mem_nil,
        or_false] at hs
      rcases hs with (rfl | rfl) | hs
      · exact ⟨0, 0, by omega, by omega, by simp⟩
      · refine ⟨0, width - 1, by omega, by omega, ?_⟩
        have e : (width + 4294967295) % 4294967296 = width - 1 := by omega
        simp only [e]
        push_cast
        ring
      · split at hs
        · obtain ⟨i, hi, rfl⟩ := (mem_fill_row _ _ _ _).1 hs
          exact ⟨0, i, by omega, hi, by simp⟩
        · simp at hs
    · obtain ⟨j, i, hj, hi, e⟩ := ih _ _ hs
      exact ⟨j + 1, i, by omega, hi, by rw [e]; push_cast; ring⟩

/-- Every store of `wlt_renderer_highlight` writes a pixel of the clipped rectangle. -/
theorem highlight_stores_pixels (rend : wlt_renderer) (x y w h : Nat)
    (hs : 4 * (rend.width : Int) ≤ rend.stride)
    (hb : rend.stride * (rend.height : Int) < 4294967296)
    (hw : w < 4294967296) (hh : h < 4294967296) (s : Int × Nat)
    (hmem : s ∈ wlt_renderer_highlight_stores rend x y w h) :
    ∃ px py, in_clipped rend x y w h px py ∧
      s.1 = (py : Int) * rend.stride + 4 * (px : Int) := by
  unfold wlt_renderer_highlight_stores at hmem
  cases h1 : clip x w rend.width with
  | none => rw [h1] at hmem; simp at hmem
  | some cw =>
    cases h2 : clip y h rend.height with
    | none => rw [h1, h2] at hmem; simp at hmem
    | some ch =>
      rw [h1, h2] at hmem
      simp only at hmem
      obtain ⟨a1, a2, a3, a4⟩ := clip_some _ _ _ _ hw h1
      obtain ⟨b1, b2, b3, b4⟩ := clip_some _ _ _ _ hh h2
      rw [dst_offset_eq_of_bound rend x y hs hb a2 b2] at hmem
      obtain ⟨j, i, hj, hi, e⟩ := mem_highlight_rows _ _ _ _ (by omega) (by omega) _ _ _ _ hmem
      refine ⟨x + i, y + j, ?_, ?_⟩
      · unfold in_clipped; omega
      · rw [e]; push_cast; ring

/-- A pixel of a valid renderer occupies four bytes inside the buffer. -/
theorem pixel_in_bounds (rend : wlt_renderer) (hv : rend.Valid) (px py : Nat)
    (hx : px < rend.width) (hy : py < rend.height) :
    0 ≤ (py : Int) * rend.stride + 4 * (px : Int) ∧
      (py : Int) * rend.stride + 4 * (px : Int) + 4 ≤ (rend.data.length : Int) := by
  obtain ⟨h1, h2, h3⟩ := hv
  have hS0 : 0 ≤ rend.stride := by omega
  have hyS : 0 ≤ (py : Int) * rend.stride := mul_nonneg (by omega) hS0
  have := mul_succ_le rend.stride py rend.height hS0 hy
  have e : rend.stride * (rend.height : Int) = (rend.height : Int) * rend.stride := mul_comm _ _
  omega


/-- C21: on a renderer with stride >= 4 x width, buffer length = stride x height and byte
offsets within 32 bits, every 32-bit store of `wlt_renderer_fill`, `wlt_renderer_highlight`
and `wlt_renderer_blend`, for arbitrary arguments, is at a byte offset `o` with `0 <= o` and
`o + 4 <= buffer length`; the clipped width is at least 1, so highlight's index `width - 1`
does not wrap; and for a glyph with stride >= width and buffer length = stride x height every
mask byte loaded by the blend is at an index below the glyph buffer length. -/
theorem primitives_in_bounds (rend : wlt_renderer) (glyph : wlt_glyph)
    (x y w h r g b fr fg fb br bg bb : Nat) (hv : rend.Valid)
    (hw : w < 4294967296) (hh : h < 4294967296)
    (hgw : glyph.width < 4294967296) (hgh : glyph.height < 4294967296) :
    (∀ s ∈ wlt_renderer_fill_stores rend x y w h r g b,
      0 ≤ s.1 ∧ s.1 + 4 ≤ (rend.data.length : Int)) ∧
    (∀ s ∈ wlt_renderer_highlight_stores rend x y w h,
      0 ≤ s.1 ∧ s.1 + 4 ≤ (rend.data.length : Int)) ∧
    (∀ s ∈ wlt_renderer_blend_stores rend glyph x y fr fg fb br bg bb,
      0 ≤ s.1 ∧ s.1 + 4 ≤ (rend.data.length : Int)) ∧
    (∀ c, clip x w rend.width = some c →
      1 ≤ c ∧ x + c ≤ rend.width ∧ (c + 4294967295) % 4294967296 + 1 = c) ∧
    (glyph.Valid → ∀ o ∈ wlt_renderer_blend_loads rend glyph x y,
      0 ≤ o ∧ o < (glyph.buffer.length : Int)) := by
  have hpix : ∀ (s : Int × Nat) (x2 y2 w2 h2 : Nat),
      (∃ px py, in_clipped rend x2 y2 w2 h2 px py ∧
        s.1 = (py : Int) * rend.stride + 4 * (px : Int)) →
      0 ≤ s.1 ∧ s.1 + 4 ≤ (rend.data.length : Int) := by
    rintro s x2 y2 w2 h2 ⟨px, py, hin, e⟩
    rw [e]
    exact pixel_in_bounds rend hv px py hin.2.2.1 hin.2.2.2.2.2.1
  refine ⟨?_, ?_, ?_, ?_, ?_⟩
  · intro s hs
    exact hpix s x y w h (fill_stores_pixels rend x y w h r g b hv.1 hv.2.2 hw hh s hs)
  · intro s hs
    exact hpix s x y w h (highlight_stores_pixels rend x y w h hv.1 hv.2.2 hw hh s hs)
  · intro s hs
    exact hpix s x y glyph.width glyph.height
      (blend_stores_pixels rend glyph x y fr fg fb br bg bb hv.1 hv.2.2 hgw hgh s hs)
  · intro c hc
    obtain ⟨a1, a2, a3, a4⟩ := clip_some _ _ _ _ hw hc
    omega
  · intro hg o ho
    unfold wlt_renderer_blend_loads at ho
    cases h1 : clip x glyph.width rend.width with
    | none => rw [h1] at ho; simp at ho
    | some cw =>
      cases h2 : clip y glyph.height rend.height with
      | none => rw [h1, h2] at ho; simp at ho
      | some ch =>
        rw [h1, h2] at ho
        simp only at ho
        obtain ⟨j, i, hj, hi, rfl⟩ := (mem_blend_rows_loads _ _ _ _ _).1 ho
        have hcw := clip_le _ _ _ _ h1
        have hch := clip_le _ _ _ _ h2
        have := glyph_index_in_bounds glyph hg i j (by omega) (by omega)
        rw [zero_add]
        exact this

/-- Instance of C21: the store of a one-pixel fill at (1, 1) of a 2x2 renderer. -/
theorem primitives_in_bounds_witness :
    (0 : Int) ≤ 12 ∧ (12 : Int) + 4 ≤ ((rend_2 0).data.length : Int) :=
  (primitives_in_bounds (rend_2 0) (glyph_10 1) 1 1 1 1 255 0 0 0 0 0 0 0 0 (by decide)
    (by decide) (by decide) (by decide) (by decide)).1 (12, pack 255 0 0) (by decide)


/-- The shortcut division of the blend as a rounded quotient. -/
theorem blend_channel_div (f a b : Nat) (hf : f < 256) (ha : a ≤ 255) (hb : b < 256) :
    blend_channel f a b = (f * a + b * (255 - a) + 127) / 255 := by
  have h1 : f * a ≤ 255 * a := Nat.mul_le_mul_right a (by omega)
  have h2 : b * (255 - a) ≤ 255 * (255 - a) := Nat.mul_le_mul_right _ (by omega)
  unfold blend_channel
  simp only [Nat.shiftRight_eq_div_pow]
  norm_num
  omega

/-- A blended channel lies between the two colours it mixes. -/
theorem blend_channel_between (f a b : Nat) (hf : f < 256) (ha : a ≤ 255) (hb : b < 256) :
    min f b ≤ blend_channel f a b ∧ blend_channel f a b ≤ max f b := by
  rw [blend_channel_div f a b hf ha hb]
  have hlo1 : min f b * a ≤ f * a := Nat.mul_le_mul_right a (Nat.min_le_left f b)
  have hlo2 : min f b * (255 - a) ≤ b * (255 - a) :=
    Nat.mul_le_mul_right _ (Nat.min_le_right f b)
  have hhi1 : f * a ≤ max f b * a := Nat.mul_le_mul_right a (Nat.le_max_left f b)
  have hhi2 : b * (255 - a) ≤ max f b * (255 - a) :=
    Nat.mul_le_mul_right _ (Nat.le_max_right f b)
  have e1 : min f b * a + min f b * (255 - a) = min f b * 255 := by
    rw [← Nat.mul_add]; congr 1; omega
  have e2 : max f b * a + max f b * (255 - a) = max f b * 255 := by
    rw [← Nat.mul_add]; congr 1; omega
  constructor
  · rw [Nat.le_div_iff_mul_le (by omega)]
    omega
  · rw [Nat.div_le_iff_le_mul_add_pred (by omega)]
    omega

/-- The packed pixel word as a sum: channels below 256 occupy separate bytes. -/
theorem pack_eq_sum (r g b : Nat) (hr : r < 256) (hg : g < 256) (hb : b < 256) :
    pack r g b = 255 * 16777216 + r * 65536 + g * 256 + b := by
  rw [pack_eq r g b hr hg hb]
  have h1 : 255 <<< 24 ||| r <<< 16 = 2 ^ 16 * (255 * 256 + r) := by
    have := Nat.mul_add_lt_is_or (show r <<< 16 < 2 ^ 24 by rw [Nat.shiftLeft_eq]; omega) 255
    rw [Nat.shiftLeft_eq] at this ⊢
    rw [Nat.shiftLeft_eq, ← this]
    omega
  have h2 : 2 ^ 16 * (255 * 256 + r) ||| g <<< 8 = 2 ^ 8 * ((255 * 256 + r) * 256 + g) := by
    have := Nat.mul_add_lt_is_or (show g <<< 8 < 2 ^ 16 by rw [Nat.shiftLeft_eq]; omega)
      (255 * 256 + r)
    rw [← this, Nat.shiftLeft_eq]
    omega
  have h3 := Nat.mul_add_lt_is_or (show b < 2 ^ 8 by omega) ((255 * 256 + r) * 256 + g)
  rw [h1, h2, ← h3]
  omega


/-- Every word stored by `wlt_renderer_blend` is the blend for some mask byte. -/
theorem blend_stores_value (rend : wlt_renderer) (glyph : wlt_glyph)
    (x y fr fg fb br bg bb : Nat) (s : Int × Nat)
    (hmem : s ∈ wlt_renderer_blend_stores rend glyph x y fr fg fb br bg bb) :
    ∃ a, a ≤ 255 ∧ s.2 = blend_pixel a fr fg fb br bg bb := by
  unfold wlt_renderer_blend_stores at hmem
  cases h1 : clip x glyph.width rend.width with
  | none => rw [h1] at hmem; simp at hmem
  | some cw =>
    cases h2 : clip y glyph.height rend.height with
    | none => rw [h1, h2] at hmem; simp at hmem
    | some ch =>
      rw [h1, h2] at hmem
      simp only at hmem
      obtain ⟨j, i, hj, hi, rfl⟩ := (mem_blend_rows _ _ _ _ _ _ _ _ _ _ _ _ _ _).1 hmem
      exact ⟨_, by have := load8_lt glyph.buffer (0 + (j : Int) * glyph.stride + (i : Int)); omega,
        rfl⟩

/-- The four bytes of a pixel word whose channels are below 256. -/
theorem byte_of_word (r g b : Nat) (hr : r < 256) (hg : g < 256) (hb : b < 256) :
    byte_of (255 * 16777216 + r * 65536 + g * 256 + b) 3 = 0xff ∧
    byte_of (255 * 16777216 + r * 65536 + g * 256 + b) 2 = r ∧
    byte_of (255 * 16777216 + r * 65536 + g * 256 + b) 1 = g ∧
    byte_of (255 * 16777216 + r * 65536 + g * 256 + b) 0 = b := by
  simp only [byte_of]
  norm_num
  omega

/-- The channel `wlt_renderer_blend` computes for mask byte `a`. -/
theorem blend_select_between (f a b : Nat) (hf : f < 256) (ha : a ≤ 255) (hb : b < 256) :
    min f b ≤ (if a = 0 then b else if a = 255 then f else blend_channel f a b) ∧
    (if a = 0 then b else if a = 255 then f else blend_channel f a b) ≤ max f b := by
  split_ifs
  · exact ⟨Nat.min_le_right f b, Nat.le_max_right f b⟩
  · exact ⟨Nat.min_le_left f b, Nat.le_max_left f b⟩
  · exact blend_channel_between f a b hf ha hb

/-- C22: for 8-bit foreground `f`, background `b` and every mask value `a <= 255` the channel
computed by `wlt_renderer_blend` lies between `min f b` and `max f b`, hence is at most 255;
so in the packed word `(0xff << 24) | (r << 16) | (g << 8) | b` each channel stays in its own
byte, and the top (alpha) byte of every word `wlt_renderer_blend` stores is 0xff. -/
theorem blend_channel_no_spill (f b a : Nat) (hf : f < 256) (hb : b < 256) (ha : a ≤ 255) :
    min f b ≤ (if a = 0 then b else if a = 255 then f else blend_channel f a b) ∧
    (if a = 0 then b else if a = 255 then f else blend_channel f a b) ≤ max f b ∧
    (if a = 0 then b else if a = 255 then f else blend_channel f a b) ≤ 255 ∧
    (∀ fr fg fb br bg bb : Nat, fr < 256 → fg < 256 → fb < 256 → br < 256 → bg < 256 →
      bb < 256 →
      blend_pixel a fr fg fb br bg bb
        = 255 * 16777216
          + (if a = 0 then br else if a = 255 then fr else blend_channel fr a br) * 65536
          + (if a = 0 then bg else if a = 255 then fg else blend_channel fg a bg) * 256
          + (if a = 0 then bb else if a = 255 then fb else blend_channel fb a bb) ∧
      byte_of (blend_pixel a fr fg fb br bg bb) 3 = 0xff ∧
      byte_of (blend_pixel a fr fg fb br bg bb) 2
        = (if a = 0 then br else if a = 255 then fr else blend_channel fr a br) ∧
      byte_of (blend_pixel a fr fg fb br bg bb) 1
        = (if a = 0 then bg else if a = 255 then fg else blend_channel fg a bg) ∧
      byte_of (blend_pixel a fr fg fb br bg bb) 0
        = (if a = 0 then bb else if a = 255 then fb else blend_channel fb a bb)) ∧
    (∀ (rend : wlt_renderer) (glyph : wlt_glyph) (x y fr fg fb br bg bb : Nat),
      fr < 256 → fg < 256 → fb < 256 → br < 256 → bg < 256 → bb < 256 →
      ∀ s ∈ wlt_renderer_blend_stores rend glyph x y fr fg fb br bg bb, byte_of s.2 3 = 0xff) := by
  have hsel := blend_select_between f a b hf ha hb
  have hword : ∀ (m fr fg fb br bg bb : Nat), m ≤ 255 → fr < 256 → fg < 256 → fb < 256 →
      br < 256 → bg < 256 → bb < 256 →
      blend_pixel m fr fg fb br bg bb
        = 255 * 16777216
          + (if m = 0 then br else if m = 255 then fr else blend_channel fr m br) * 65536
          + (if m = 0 then bg else if m = 255 then fg else blend_channel fg m bg) * 256
          + (if m = 0 then bb else if m = 255 then fb else blend_channel fb m bb) ∧
      (if m = 0 then br else if m = 255 then fr else blend_channel fr m br) < 256 ∧
      (if m = 0 then bg else if m = 255 then fg else blend_channel fg m bg) < 256 ∧
      (if m = 0 then bb else if m = 255 then fb else blend_channel fb m bb) < 256 := by
    intro m fr fg fb br bg bb hm h1 h2 h3 h4 h5 h6
    have c1 := (blend_select_between fr m br h1 hm h4).2
    have c2 := (blend_select_between fg m bg h2 hm h5).2
    have c3 := (blend_select_between fb m bb h3 hm h6).2
    have m1 : max fr br < 256 := max_lt h1 h4
    have m2 : max fg bg < 256 := max_lt h2 h5
    have m3 : max fb bb < 256 := max_lt h3 h6
    refine ⟨?_, by omega, by omega, by omega⟩
    rw [blend_pixel_eq, pack_eq_sum _ _ _ (by omega) (by omega) (by omega)]
  have hmax : max f b < 256 := max_lt hf hb
  refine ⟨hsel.1, hsel.2, by omega, ?_, ?_⟩
  · intro fr fg fb br bg bb h1 h2 h3 h4 h5 h6
    obtain ⟨e, c1, c2, c3⟩ := hword a fr fg fb br bg bb ha h1 h2 h3 h4 h5 h6
    rw [e]
    exact ⟨rfl, byte_of_word _ _ _ c1 c2 c3⟩
  · intro rend glyph x y fr fg fb br bg bb h1 h2 h3 h4 h5 h6 s hs
    obtain ⟨m, hm, e⟩ := blend_stores_value rend glyph x y fr fg fb br bg bb s hs
    obtain ⟨e2, c1, c2, c3⟩ := hword m fr fg fb br bg bb hm h1 h2 h3 h4 h5 h6
    rw [e, e2]
    exact (byte_of_word _ _ _ c1 c2 c3).1

/-- Instance of C22: foreground 10 over background 200 at mask 128 gives a channel between
10 and 200. -/
theorem blend_channel_no_spill_witness :
    min 10 200 ≤ blend_channel 10 128 200 ∧ blend_channel 10 128 200 ≤ max 10 200 :=
  ⟨(blend_channel_no_spill 10 200 128 (by decide) (by decide) (by decide)).1,
   (blend_channel_no_spill 10 200 128 (by decide) (by decide) (by decide)).2.1⟩


/-- The paint part of the callback when the glyph cannot be rendered: the fallback fill,
then the debug outline when it is due. -/
theorem draw_cell_paint_fallback (ctx : wlt_draw_ctx) (id : Nat) (ch : List Nat)
    (len cwidth posx posy : Nat) (attr : tsm_screen_attr) (skip : Bool) (env : render_env)
    (hlen : len ≠ 0) (hfail : (wlt_face_render ctx.face id ch len cwidth env).r < 0) :
    (draw_cell_paint ctx id ch len cwidth posx posy attr skip env).rend =
      if !skip && ctx.debug then
        wlt_renderer_highlight
          (wlt_renderer_fill ctx.rend (posx * ctx.cell_width % 4294967296)
            (posy * ctx.cell_height % 4294967296) (ctx.cell_width * cwidth % 4294967296)
            ctx.cell_height
            (if attr.inverse then attr.fr else attr.br)
            (if attr.inverse then attr.fg else attr.bg)
            (if attr.inverse then attr.fb else attr.bb))
          (posx * ctx.cell_width % 4294967296) (posy * ctx.cell_height % 4294967296)
          (ctx.cell_width * cwidth % 4294967296) ctx.cell_height
      else
        wlt_renderer_fill ctx.rend (posx * ctx.cell_width % 4294967296)
          (posy * ctx.cell_height % 4294967296) (ctx.cell_width * cwidth % 4294967296)
          ctx.cell_height
          (if attr.inverse then attr.fr else attr.br)
          (if attr.inverse then attr.fg else attr.bg)
          (if attr.inverse then attr.fb else attr.bb) := by
  unfold draw_cell_paint
  simp only [hlen, if_false, hfail, if_true]
  split <;> rfl

/-- The paint part of the callback when the glyph is rendered: the blend of that glyph, then
the debug outline when it is due; the face is the one `wlt_face_render` left. -/
theorem draw_cell_paint_glyph (ctx : wlt_draw_ctx) (id : Nat) (ch : List Nat)
    (len cwidth posx posy : Nat) (attr : tsm_screen_attr) (skip : Bool) (env : render_env)
    (hlen : len ≠ 0) (hok : 0 ≤ (wlt_face_render ctx.face id ch len cwidth env).r) :
    ∃ glyph, (wlt_face_render ctx.face id ch len cwidth env).out = some glyph ∧
      (draw_cell_paint ctx id ch len cwidth posx posy attr skip env).face
        = (wlt_face_render ctx.face id ch len cwidth env).face ∧
      (draw_cell_paint ctx id ch len cwidth posx posy attr skip env).rend =
        if !skip && ctx.debug then
          wlt_renderer_highlight
            (wlt_renderer_blend ctx.rend glyph (posx * ctx.cell_width % 4294967296)
              (posy * ctx.cell_height % 4294967296)
              (if attr.inverse then attr.br else attr.fr)
              (if attr.inverse then attr.bg else attr.fg)
              (if attr.inverse then attr.bb else attr.fb)
              (if attr.inverse then attr.fr else attr.br)
              (if attr.inverse then attr.fg else attr.bg)
              (if attr.inverse then attr.fb else attr.bb))
            (posx * ctx.cell_width % 4294967296) (posy * ctx.cell_height % 4294967296)
            (ctx.cell_width * cwidth % 4294967296) ctx.cell_height
        else
          wlt_renderer_blend ctx.rend glyph (posx * ctx.cell_width % 4294967296)
            (posy * ctx.cell_height % 4294967296)
            (if attr.inverse then attr.br else attr.fr)
            (if attr.inverse then attr.bg else attr.fg)
            (if attr.inverse then attr.bb else attr.fb)
            (if attr.inverse then attr.fr else attr.br)
            (if attr.inverse then attr.fg else attr.bg)
            (if attr.inverse then attr.fb else attr.bb) := by
  have hout : ∃ glyph, (wlt_face_render ctx.face id ch len cwidth env).out = some glyph := by
    rcases wlt_face_render_cases ctx.face id ch len cwidth env with
      ⟨g2, _, he⟩ | ⟨_, hneg, _, _⟩ | ⟨_, _, _, g2, _, he⟩
    · exact ⟨g2, by rw [he]⟩
    · omega
    · exact ⟨g2, by rw [he]⟩
  obtain ⟨glyph, hg⟩ := hout
  refine ⟨glyph, hg, ?_, ?_⟩
  · unfold draw_cell_paint
    simp only [hlen, if_false, if_neg (not_lt.2 hok), hg]
    split <;> rfl
  · unfold draw_cell_paint
    simp only [hlen, if_false, if_neg (not_lt.2 hok), hg]
    split <;> rfl

/-- The paint part of the callback for a background-only cell: the fill, then the debug
outline when it is due; the face is untouched. -/
theorem draw_cell_paint_empty (ctx : wlt_draw_ctx) (id : Nat) (ch : List Nat)
    (cwidth posx posy : Nat) (attr : tsm_screen_attr) (skip : Bool) (env : render_env) :
    (draw_cell_paint ctx id ch 0 cwidth posx posy attr skip env).face = ctx.face ∧
    (draw_cell_paint ctx id ch 0 cwidth posx posy attr skip env).rend =
      if !skip && ctx.debug then
        wlt_renderer_highlight
          (wlt_renderer_fill ctx.rend (posx * ctx.cell_width % 4294967296)
            (posy * ctx.cell_height % 4294967296) (ctx.cell_width * cwidth % 4294967296)
            ctx.cell_height
            (if attr.inverse then attr.fr else attr.br)
            (if attr.inverse then attr.fg else attr.bg)
            (if attr.inverse then attr.fb else attr.bb))
          (posx * ctx.cell_width % 4294967296) (posy * ctx.cell_height % 4294967296)
          (ctx.cell_width * cwidth % 4294967296) ctx.cell_height
      else
        wlt_renderer_fill ctx.rend (posx * ctx.cell_width % 4294967296)
          (posy * ctx.cell_height % 4294967296) (ctx.cell_width * cwidth % 4294967296)
          ctx.cell_height
          (if attr.inverse then attr.fr else attr.br)
          (if attr.inverse then attr.fg else attr.bg)
          (if attr.inverse then attr.fb else attr.bb) := by
  unfold draw_cell_paint
  simp only [if_true]
  constructor <;> split <;> rfl


/-- C13 (amended): `wlt_renderer_draw_cell` returns 0 for every input.  When
`wlt_face_render` fails for a cell with code points, the error is not propagated and the
outcome (return value, renderer, face) is that of the same visit with code-point count 0;
when the callback does not return early and no debug outline is due (debug off, or debug on
and the cell skip-eligible) the renderer is `wlt_renderer_fill(x, y, cell_width x multiplier,
cell_height, background)` applied to the previous one; with debug on and the cell not
skip-eligible it is `wlt_renderer_highlight` of the same rectangle applied to that fill; and
with debug off and the cell skip-eligible the callback returns early and draws nothing. -/
theorem wlt_renderer_draw_cell_fallback (ctx : wlt_draw_ctx) (id : Nat) (ch : List Nat)
    (len cwidth posx posy : Nat) (attr : tsm_screen_attr) (age : Nat) (env : render_env)
    (hlen : len ≠ 0) (hfail : (wlt_face_render ctx.face id ch len cwidth env).r < 0) :
    (∀ (id2 : Nat) (ch2 : List Nat) (len2 cwidth2 posx2 posy2 : Nat) (attr2 : tsm_screen_attr)
      (age2 : Nat) (env2 : render_env),
      (wlt_renderer_draw_cell ctx id2 ch2 len2 cwidth2 posx2 posy2 attr2 age2 env2).1 = 0) ∧
    wlt_renderer_draw_cell ctx id ch len cwidth posx posy attr age env
      = wlt_renderer_draw_cell ctx id ch 0 cwidth posx posy attr age env ∧
    (draw_cell_skip ctx posx posy age = ctx.debug →
      (wlt_renderer_draw_cell ctx id ch len cwidth posx posy attr age env).2.rend
        = wlt_renderer_fill ctx.rend (posx * ctx.cell_width % 4294967296)
            (posy * ctx.cell_height % 4294967296) (ctx.cell_width * cwidth % 4294967296)
            ctx.cell_height
            (if attr.inverse then attr.fr else attr.br)
            (if attr.inverse then attr.fg else attr.bg)
            (if attr.inverse then attr.fb else attr.bb)) ∧
    (draw_cell_skip ctx posx posy age = false → ctx.debug = true →
      (wlt_renderer_draw_cell ctx id ch len cwidth posx posy attr age env).2.rend
        = wlt_renderer_highlight
            (wlt_renderer_fill ctx.rend (posx * ctx.cell_width % 4294967296)
              (posy * ctx.cell_height % 4294967296) (ctx.cell_width * cwidth % 4294967296)
              ctx.cell_height
              (if attr.inverse then attr.fr else attr.br)
              (if attr.inverse then attr.fg else attr.bg)
              (if attr.inverse then attr.fb else attr.bb))
            (posx * ctx.cell_width % 4294967296) (posy * ctx.cell_height % 4294967296)
            (ctx.cell_width * cwidth % 4294967296) ctx.cell_height) ∧
    (draw_cell_skip ctx posx posy age = true → ctx.debug = false →
      wlt_renderer_draw_cell ctx id ch len cwidth posx posy attr age env = (0, ctx)) ∧
    (wlt_renderer_draw_cell ctx id ch len cwidth posx posy attr age env).2.face = ctx.face := by
  have hface : (wlt_face_render ctx.face id ch len cwidth env).face = ctx.face := by
    rcases wlt_face_render_cases ctx.face id ch len cwidth env with
      ⟨g2, _, he⟩ | ⟨_, _, _, hf⟩ | ⟨_, _, _, g2, _, he⟩
    · rw [he]
    · exact hf
    · rw [he] at hfail
      simp at hfail
  have hpaint : ∀ skip : Bool,
      draw_cell_paint ctx id ch len cwidth posx posy attr skip env
        = draw_cell_paint ctx id ch 0 cwidth posx posy attr skip env := by
    intro skip
    unfold draw_cell_paint
    simp only [hlen, if_false, hfail, if_true, hface, if_pos]
  have hrend := draw_cell_paint_fallback ctx id ch len cwidth posx posy attr
    (draw_cell_skip ctx posx posy age) env hlen hfail
  refine ⟨?_, ?_, ?_, ?_, ?_, ?_⟩
  · intro id2 ch2 len2 cwidth2 posx2 posy2 attr2 age2 env2
    unfold wlt_renderer_draw_cell
    simp only
    split <;> rfl
  · unfold wlt_renderer_draw_cell
    simp only [hpaint]
  · intro hsd
    unfold wlt_renderer_draw_cell
    simp only [hpaint]
    unfold draw_cell_paint
    cases hd : ctx.debug <;> simp [hsd, hd]
  · intro hs hd
    unfold wlt_renderer_draw_cell
    simp only [hs, Bool.false_and, Bool.false_eq_true, if_false]
    rw [hs, hd] at hrend
    exact hrend
  · intro hs hd
    unfold wlt_renderer_draw_cell
    simp [hs, hd]
  · unfold wlt_renderer_draw_cell
    simp only
    split
    · rfl
    · simp only [hpaint]
      exact (draw_cell_paint_empty ctx id ch cwidth posx posy attr _ env).1

/-- Instance of C13 (amended): debug on, the allocation of the glyph record fails; the
renderer is the outline drawn over the background fill. -/
theorem wlt_renderer_draw_cell_fallback_witness :
    (wlt_renderer_draw_cell (ctx_2 true 0) 65 [65] 1 1 0 0 attr_plain 0 env_fail).2.rend
      = wlt_renderer_highlight (wlt_renderer_fill (rend_2 0) 0 0 2 2 0 0 0) 0 0 2 2 :=
  (wlt_renderer_draw_cell_fallback (ctx_2 true 0) 65 [65] 1 1 0 0 attr_plain 0 env_fail
    (by decide) (by decide)).2.2.2.1 (by decide) (by decide)

/-- C5: `wlt_renderer_dirty` sets the age to 0 and changes no other field; a successful
`wlt_renderer_resize` leaves age 0; and whenever the renderer's age is 0 the skip test of
`wlt_renderer_draw_cell` is false for every cell, cell age and damage rectangle, so every
visited cell is redrawn: a background-only cell and a cell whose glyph cannot be rendered
are filled with the background, a cell whose glyph is rendered is blended with that glyph
(followed by the debug outline when debug is on). -/
theorem renderer_age_zero_forces_repaint (rend : wlt_renderer) (ctx : wlt_draw_ctx)
    (h0 : ctx.rend.age = 0) :
    (wlt_renderer_dirty rend).age = 0 ∧
    (wlt_renderer_dirty rend).width = rend.width ∧
    (wlt_renderer_dirty rend).height = rend.height ∧
    (wlt_renderer_dirty rend).stride = rend.stride ∧
    (wlt_renderer_dirty rend).data = rend.data ∧
    (∀ (width height : Nat) (env : realloc_env),
      (wlt_renderer_resize rend width height env).1 = 0 →
      (wlt_renderer_resize rend width height env).2.age = 0) ∧
    (∀ posx posy age : Nat, draw_cell_skip ctx posx posy age = false) ∧
    (∀ (id : Nat) (ch : List Nat) (len cwidth posx posy : Nat) (attr : tsm_screen_attr)
      (age : Nat) (env : render_env),
      wlt_renderer_draw_cell ctx id ch len cwidth posx posy attr age env
        = (0, draw_cell_paint ctx id ch len cwidth posx posy attr false env)) ∧
    (∀ (id : Nat) (ch : List Nat) (len cwidth posx posy : Nat) (attr : tsm_screen_attr)
      (age : Nat) (env : render_env),
      (len = 0 ∨ (wlt_face_render ctx.face id ch len cwidth env).r < 0) →
      (wlt_renderer_draw_cell ctx id ch len cwidth posx posy attr age env).2.rend =
        if ctx.debug then
          wlt_renderer_highlight
            (wlt_renderer_fill ctx.rend (posx * ctx.cell_width % 4294967296)
              (posy * ctx.cell_height % 4294967296) (ctx.cell_width * cwidth % 4294967296)
              ctx.cell_height
              (if attr.inverse then attr.fr else attr.br)
              (if attr.inverse then attr.fg else attr.bg)
              (if attr.inverse then attr.fb else attr.bb))
            (posx * ctx.cell_width % 4294967296) (posy * ctx.cell_height % 4294967296)
            (ctx.cell_width * cwidth % 4294967296) ctx.cell_height
        else
          wlt_renderer_fill ctx.rend (posx * ctx.cell_width % 4294967296)
            (posy * ctx.cell_height % 4294967296) (ctx.cell_width * cwidth % 4294967296)
            ctx.cell_height
            (if attr.inverse then attr.fr else attr.br)
            (if attr.inverse then attr.fg else attr.bg)
            (if attr.inverse then attr.fb else attr.bb)) ∧
    (∀ (id : Nat) (ch : List Nat) (len cwidth posx posy : Nat) (attr : tsm_screen_attr)
      (age : Nat) (env : render_env),
      len ≠ 0 → 0 ≤ (wlt_face_render ctx.face id ch len cwidth env).r →
      ∃ glyph, (wlt_face_render ctx.face id ch len cwidth env).out = some glyph ∧
        (wlt_renderer_draw_cell ctx id ch len cwidth posx posy attr age env).2.face
          = (wlt_face_render ctx.face id ch len cwidth env).face ∧
        (wlt_renderer_draw_cell ctx id ch len cwidth posx posy attr age env).2.rend =
          if ctx.debug then
            wlt_renderer_highlight
              (wlt_renderer_blend ctx.rend glyph (posx * ctx.cell_width % 4294967296)
                (posy * ctx.cell_height % 4294967296)
                (if attr.inverse then attr.br else attr.fr)
                (if attr.inverse then attr.bg else attr.fg)
                (if attr.inverse then attr.bb else attr.fb)
                (if attr.inverse then attr.fr else attr.br)
                (if attr.inverse then attr.fg else attr.bg)
                (if attr.inverse then attr.fb else attr.bb))
              (posx * ctx.cell_width % 4294967296) (posy * ctx.cell_height % 4294967296)
              (ctx.cell_width * cwidth % 4294967296) ctx.cell_height
          else
            wlt_renderer_blend ctx.rend glyph (posx * ctx.cell_width % 4294967296)
              (posy * ctx.cell_height % 4294967296)
              (if attr.inverse then attr.br else attr.fr)
              (if attr.inverse then attr.bg else attr.fg)
              (if attr.inverse then attr.bb else attr.fb)
              (if attr.inverse then attr.fr else attr.br)
              (if attr.inverse then attr.fg else attr.bg)
              (if attr.inverse then attr.fb else attr.bb)) := by
  have hskip : ∀ posx posy age : Nat, draw_cell_skip ctx posx posy age = false := by
    intro posx posy age
    unfold draw_cell_skip
    simp [h0]
  have hcell : ∀ (id : Nat) (ch : List Nat) (len cwidth posx posy : Nat)
      (attr : tsm_screen_attr) (age : Nat) (env : render_env),
      wlt_renderer_draw_cell ctx id ch len cwidth posx posy attr age env
        = (0, draw_cell_paint ctx id ch len cwidth posx posy attr false env) := by
    intro id ch len cwidth posx posy attr age env
    unfold wlt_renderer_draw_cell
    simp [hskip]
  refine ⟨rfl, rfl, rfl, rfl, rfl, ?_, hskip, hcell, ?_, ?_⟩
  · intro width height env hr
    unfold wlt_renderer_resize wlt_renderer_realloc at hr ⊢
    simp only at hr ⊢
    split_ifs at hr ⊢ with h1 h2
    · simp [ENOMEM] at hr
    · simp [ENOMEM] at hr
    · rfl
  · intro id ch len cwidth posx posy attr age env hcase
    rw [hcell]
    simp only
    by_cases hlen : len = 0
    · subst hlen
      rw [(draw_cell_paint_empty ctx id ch cwidth posx posy attr false env).2]
      simp
    · rcases hcase with h | h
      · exact absurd h hlen
      · rw [draw_cell_paint_fallback ctx id ch len cwidth posx posy attr false env hlen h]
        simp
  · intro id ch len cwidth posx posy attr age env hlen hok
    obtain ⟨glyph, hg, hf, hr⟩ :=
      draw_cell_paint_glyph ctx id ch len cwidth posx posy attr false env hlen hok
    refine ⟨glyph, hg, ?_, ?_⟩
    · rw [hcell]; exact hf
    · rw [hcell]
      simp only
      rw [hr]
      simp

/-- Instance of C5: on a 2x2 renderer of age 0 the background-only cell (0, 0) of age 3 under
full damage is not skipped but filled with its red background. -/
theorem renderer_age_zero_forces_repaint_witness :
    draw_cell_skip (ctx_2 false 0) 0 0 3 = false ∧
    (wlt_renderer_draw_cell (ctx_2 false 0) 0 [] 0 1 0 0 attr_red 3 env_ok).2.rend
      = wlt_renderer_fill (rend_2 0) 0 0 2 2 255 0 0 ∧
    (wlt_renderer_fill (rend_2 0) 0 0 2 2 255 0 0).data
      = [0, 0, 255, 255, 0, 0, 255, 255, 0, 0, 255, 255, 0, 0, 255, 255] :=
  ⟨(renderer_age_zero_forces_repaint (rend_2 5) (ctx_2 false 0) (by decide)).2.2.2.2.2.2.1 0 0 3,
   (renderer_age_zero_forces_repaint (rend_2 5) (ctx_2 false 0) (by decide)).2.2.2.2.2.2.2.2.1
      0 [] 0 1 0 0 attr_red 3 env_ok (by decide),
   by decide⟩

end Wlterm
